import Mathlib

set_option autoImplicit false

/-!
Verification of the open-atlas backend (`src/backend/app.py`) against its
natural-language specification.

The Python source is shallowly embedded: pure fragments become Lean
functions, HTTP calls to the external CKAN catalog become oracle
parameters (`Except`-valued functions supplied by the caller), Python
`dict`/JSON values become an inductive `Json` type, Python `float`
arithmetic is modelled over `ℚ` — exactly where no claim depends on
rounding (coordinate comparisons, distance sorting), and through `fl64`,
an exact model of round-to-nearest-even binary64 rounding, where it does
(the sampling stride `int(i * (len/k))`, whose two float roundings can
shift the index by one) — and Python exceptions become `Except` values.  Everything is executable; concrete
scenarios are settled by kernel evaluation.
-/

/-! ## Python string primitives

The source manipulates strings with `str.lower`, `str.strip`,
`str.startswith`, the `in` operator, `str.replace` and `' '.join`.
These are modelled character-list-wise (ASCII case folding and ASCII
whitespace, which covers every literal the source compares against).
-/

/-- ASCII lower-casing of one character (models `str.lower` per character). -/
def asciiLower (c : Char) : Char :=
  if 65 ≤ c.toNat ∧ c.toNat ≤ 90 then Char.ofNat (c.toNat + 32) else c

/-- Models Python `s.lower()` (ASCII range). -/
def pyLower (s : String) : String := ⟨s.data.map asciiLower⟩

/-- Python whitespace characters stripped by `str.strip()`. -/
def pyWS (c : Char) : Bool :=
  c == ' ' || c == '\t' || c == '\n' || c == '\r' || c == '\x0b' || c == '\x0c'

/-- Models Python `s.strip()`. -/
def pyStrip (s : String) : String :=
  ⟨(((s.data.dropWhile pyWS).reverse).dropWhile pyWS).reverse⟩

/-- Models Python `s.startswith(p)`. -/
def pyStartsWith (s p : String) : Bool := p.data.isPrefixOf s.data

/-- Does `needle` occur as a contiguous subsequence of `hay`? -/
def subSeqOf (needle : List Char) : List Char → Bool
  | [] => needle.isEmpty
  | c :: t => needle.isPrefixOf (c :: t) || subSeqOf needle t

/-- Models the Python expression `needle in hay` on strings. -/
def pyIn (needle hay : String) : Bool := subSeqOf needle.data hay.data

/-- Models the source's `value.replace(',', '.')` (single-character pattern,
so the replacement is character-wise). -/
def commaToDot (s : String) : String :=
  ⟨s.data.map (fun c => if c == ',' then '.' else c)⟩

/-- Models Python `' '.join(parts)`. -/
def joinWithSpace : List String → String
  | [] => ""
  | [s] => s
  | s :: t => s ++ " " ++ joinWithSpace t

/-! ## JSON values

Python dicts/lists parsed from catalog responses.  Object fields keep
insertion order, as Python dicts do. -/

/-- A JSON value (the result of `response.json()` / `json` module parsing). -/
inductive Json where
  | null
  | bool (b : Bool)
  | num (q : ℚ)
  | str (s : String)
  | arr (xs : List Json)
  | obj (fields : List (String × Json))

/-- First binding of key `k` in an association list (Python `dict` lookup:
the model never builds objects with duplicate keys). -/
def jLookup (fields : List (String × Json)) (k : String) : Option Json :=
  List.lookup k fields

/-- Models `d.get(k, default)` on a dict. -/
def jGetD (fields : List (String × Json)) (k : String) (default : Json) : Json :=
  (jLookup fields k).getD default

/-- Models `d.get(k)` on a dict (missing key gives `None`). -/
def jGet (fields : List (String × Json)) (k : String) : Json :=
  jGetD fields k Json.null

/-- Python truthiness of a JSON value (`if data.get('success'):` etc.). -/
def Json.truthy : Json → Bool
  | .null => false
  | .bool b => b
  | .num q => q != 0
  | .str s => s != ""
  | .arr xs => !xs.isEmpty
  | .obj fs => !fs.isEmpty

/-! ## Coordinate-column detection (`detect_coordinate_columns`) -/

/-- The latitude header patterns, in source order (app.py line 238). -/
def lat_patterns : List String := ["lat", "latitude", "breitengrad", "y", "northing"]

/-- The longitude header patterns, in source order (app.py line 239). -/
def lon_patterns : List String := ["lon", "lng", "longitude", "laengengrad", "längengrad", "x", "easting"]

/-- `h.lower().strip()` applied to a header (app.py line 236). -/
def normHeader (h : String) : String := pyStrip (pyLower h)

/-- Pass-1 matching: `pattern == h or h.startswith(pattern)` for some pattern
(app.py line 248). -/
def prefixHit (pats : List String) (h : String) : Bool :=
  pats.any (fun p => p == h || pyStartsWith h p)

/-- Pass-2 matching: `pattern in h` for some pattern (app.py line 263). -/
def substrHit (pats : List String) (h : String) : Bool :=
  pats.any (fun p => pyIn p h)

/-- One loop iteration of the detection scan: each axis keeps its first
assignment (the `if not lat_col:` / `if not lon_col:` guards; an assigned
column name is always a non-empty string, hence truthy). -/
def detectStep (matcher : List String → String → Bool)
    (acc : Option String × Option String) (h : String) : Option String × Option String :=
  let hl := normHeader h
  (if acc.1.isNone && matcher lat_patterns hl then some h else acc.1,
   if acc.2.isNone && matcher lon_patterns hl then some h else acc.2)

/-- One full scan over the headers (the `for i, h in enumerate(headers_lower)`
loops of app.py lines 245-256 and 260-271). -/
def detectPass (matcher : List String → String → Bool)
    (headers : List String) (acc : Option String × Option String) :
    Option String × Option String :=
  headers.foldl (detectStep matcher) acc

/-- `detect_coordinate_columns` (app.py lines 234-273): pass 1 uses
equals-or-startswith matching; pass 2 (substring matching) runs only when
an axis is still undetected (`if not lat_col or not lon_col:`). -/
def detect_coordinate_columns (headers : List String) : Option String × Option String :=
  let p1 := detectPass prefixHit headers (none, none)
  if p1.1.isNone || p1.2.isNone then detectPass substrHit headers p1 else p1

/-- Specification-side reading (spec §4.3): for one axis, the first header in
original column order that matches under the given matcher. -/
def firstAxisMatch (matcher : List String → String → Bool)
    (pats : List String) (headers : List String) : Option String :=
  headers.find? (fun h => matcher pats (normHeader h))

/-- Specification-side reading of detection for one axis: the first
exact/prefix-matching header, and only if none exists the first
substring-matching header. -/
def axisSpec (pats : List String) (headers : List String) : Option String :=
  (firstAxisMatch prefixHit pats headers).orElse
    (fun _ => firstAxisMatch substrHit pats headers)

/-! ### Detection lemmas -/

/-- A single-axis version of the scan. -/
def axisPass (matcher : List String → String → Bool) (pats : List String)
    (headers : List String) (acc : Option String) : Option String :=
  headers.foldl (fun c h => if c.isNone && matcher pats (normHeader h) then some h else c) acc

/-! ## CSV row conversion (`csv_to_geojson`) -/

/-- The literal `{"type": "FeatureCollection", "features": []}` returned on
every degraded path of the source. -/
def emptyFC : Json :=
  .obj [("type", .str "FeatureCollection"), ("features", .arr [])]

/-- Numeric value of a list of ASCII digit characters. -/
def natOfDigits (cs : List Char) : ℕ := cs.foldl (fun n c => n * 10 + (c.toNat - 48)) 0

/-- Models Python `float(s)` on plain decimal literals: optional sign, digits
with at most one `'.'`, at least one digit.  (Python `float` also accepts
exponent, `inf`/`nan` and underscore forms; none occur in the claims and
they are outside this model.)  `none` models a raised `ValueError`. -/
def pyFloat? (s : String) : Option ℚ :=
  let cs := s.data
  let neg := match cs with | '-' :: _ => true | _ => false
  let rest := match cs with | '-' :: t => t | '+' :: t => t | t => t
  let ip := rest.takeWhile (fun c => c != '.')
  let tail := rest.dropWhile (fun c => c != '.')
  let signed := fun (v : ℚ) => if neg then -v else v
  match tail with
  | [] =>
      if !ip.isEmpty && ip.all Char.isDigit then
        some (signed (mkRat (natOfDigits ip) 1))
      else none
  | _ :: fp =>
      if fp.all (fun c => c != '.') && ip.all Char.isDigit && fp.all Char.isDigit
          && (!ip.isEmpty || !fp.isEmpty) then
        some (signed (mkRat (natOfDigits ip * 10 ^ fp.length + natOfDigits fp) (10 ^ fp.length)))
      else none

/-- A CSV row as produced by `csv.DictReader`: one cell per header in column
order; `none` models a Python `None` cell (a short row). -/
abbrev CsvRow := List (String × Option String)

/-- Models the `row.get(col, '')` read at app.py lines 299-300 together with
the subsequent `.strip()` failure mode: a missing key yields the default
`''`; a `None` value makes `.strip()` raise `AttributeError`, which the
row loop catches by skipping the row — modelled as `none`. -/
def rowGet (row : CsvRow) (k : String) : Option String :=
  match List.lookup k row with
  | none => some ""
  | some none => none
  | some (some s) => some s

/-- A CSV cell as a JSON property value (`None` cells become JSON null). -/
def optValJson : Option String → Json
  | none => Json.null
  | some s => Json.str s

/-- The property map of one row: every column except the two detected
coordinate columns, in column order (app.py line 310). -/
def rowProps (latCol lonCol : String) (row : CsvRow) : List (String × Json) :=
  (row.filter (fun kv => !(kv.1 == latCol || kv.1 == lonCol))).map
    (fun kv => (kv.1, optValJson kv.2))

/-- The GeoJSON feature literal built at app.py lines 312-319. -/
def csvFeature (lon lat : ℚ) (props : List (String × Json)) : Json :=
  .obj [("type", .str "Feature"),
        ("geometry", .obj [("type", .str "Point"),
                           ("coordinates", .arr [.num lon, .num lat])]),
        ("properties", .obj props)]

/-- One iteration of the row-conversion loop (app.py lines 297-324).
`none` means the row was skipped: a `None` cell (`AttributeError`), a blank
cell after stripping (`continue`), or a `float` parse failure
(`ValueError`); the `except (ValueError, AttributeError): continue` makes
every skip silent. -/
def rowFeature (latCol lonCol : String) (row : CsvRow) : Option Json := do
  let latRaw ← rowGet row latCol
  let lonRaw ← rowGet row lonCol
  let latStr := pyStrip latRaw
  let lonStr := pyStrip lonRaw
  if latStr == "" || lonStr == "" then none
  else do
    let lat ← pyFloat? (commaToDot latStr)
    let lon ← pyFloat? (commaToDot lonStr)
    some (csvFeature lon lat (rowProps latCol lonCol row))

/-- `csv_to_geojson` (app.py lines 275-335).  `csv.DictReader` parsing is
supplied as an oracle `parse` (the Python `csv` module is an external
library; the claims concern the conversion of its parsed rows).  The
headers are the first row's keys, as in the source. -/
def csv_to_geojson (parse : String → List CsvRow) (csv_content : String)
    (package_id : String) : Json :=
  let _ := package_id
  let rows := parse csv_content
  match rows with
  | [] => emptyFC
  | r0 :: _ =>
      let headers := r0.map (·.1)
      match detect_coordinate_columns headers with
      | (some latCol, some lonCol) =>
          .obj [("type", .str "FeatureCollection"),
                ("features", .arr (rows.filterMap (rowFeature latCol lonCol)))]
      | _ => emptyFC

/-! ## Dataset fetch (`fetch_ckan_dataset`) -/

/-- A `requests` response after the network round-trip succeeded: the HTTP
status, the raw body text, and the result of calling `.json()` on it
(`.error` models a raised `JSONDecodeError`). -/
structure HttpResp where
  status : ℤ
  text : String
  body : Except Unit Json

/-- An HTTP oracle; `.error` models a raised `requests` exception. -/
abbrev HttpOracle := String → Except Unit HttpResp

/-- `resource.get('format', '').lower()` (app.py line 365); raises (`.error`)
when the resource is not a dict or its `format` value is not a string. -/
def resourceFormat : Json → Except Unit String
  | .obj fs =>
      match jGetD fs "format" (.str "") with
      | .str s => .ok (pyLower s)
      | _ => .error ()
  | _ => .error ()

/-- The inner `for resource in resources:` scan of app.py lines 364-368 for
one format tier: the first resource whose declared format equals `fmt`. -/
def findByFormat (resources : List Json) (fmt : String) : Except Unit (Option Json) :=
  match resources with
  | [] => .ok none
  | r :: rest => do
      let f ← resourceFormat r
      if f == fmt then .ok (some r) else findByFormat rest fmt

/-- The `format_priority` scan of app.py lines 360-370: GeoJSON, then JSON,
then CSV; the first match within a tier wins and later tiers are not
scanned. -/
def selectResource (resources : List Json) : Except Unit (Option (Json × String)) := do
  match ← findByFormat resources "geojson" with
  | some r => return some (r, "geojson")
  | none =>
    match ← findByFormat resources "json" with
    | some r => return some (r, "json")
    | none =>
      match ← findByFormat resources "csv" with
      | some r => return some (r, "csv")
      | none => return none

/-- The body of `fetch_ckan_dataset` without its outermost exception
handlers (app.py lines 340-396).  `.error` marks every point where the
Python body raises — the handlers at lines 398-406 turn all of them into
the empty collection. -/
def fetchCore (parse : String → List CsvRow) (metaGet contentGet : HttpOracle)
    (package_id : String) : Except Unit Json :=
  match metaGet package_id with
  | .error _ => .error ()
  | .ok resp =>
    if 400 ≤ resp.status then .error () else
    match resp.body with
    | .error _ => .error ()
    | .ok (.obj fields) =>
      if !(jGet fields "success").truthy then .ok emptyFC else
      match jGetD fields "result" (.obj []) with
      | .obj resFields =>
        match jGetD resFields "resources" (.arr []) with
        | .arr resources =>
          match selectResource resources with
          | .error _ => .error ()
          | .ok none => .ok emptyFC
          | .ok (some (.obj rf, fmt)) =>
            if !(jGet rf "url").truthy then .ok emptyFC else
            match jGet rf "url" with
            | .str u =>
              match contentGet u with
              | .error _ => .error ()
              | .ok dataResp =>
                if 400 ≤ dataResp.status then .error () else
                if fmt == "csv" then .ok (csv_to_geojson parse dataResp.text package_id)
                else dataResp.body
            | _ => .error ()
          | .ok (some _) => .error ()
        | _ => .error ()
      | _ => .error ()
    | .ok _ => .error ()

/-- `fetch_ckan_dataset` (app.py lines 337-406).  The `@lru_cache` memoizes
a function that is pure given the oracles, so cached and uncached calls
coincide; every exception handler returns the empty collection. -/
def fetch_ckan_dataset (parse : String → List CsvRow) (metaGet contentGet : HttpOracle)
    (package_id : String) : Json :=
  match fetchCore parse metaGet contentGet package_id with
  | .ok j => j
  | .error _ => emptyFC

/-- Specification-side shape test (spec §6: the standard FeatureCollection
shape): a dict whose `type` is `"FeatureCollection"` and whose `features`
is a list. -/
def Json.isFeatureCollection : Json → Bool
  | .obj fs =>
      (match jLookup fs "type" with
       | some (.str t) => t == "FeatureCollection"
       | _ => false)
      && (match jLookup fs "features" with
          | some (.arr _) => true
          | _ => false)
  | _ => false

/-! ## Workspace resolution -/

/-- A catalog lookup oracle for groups/tags: `.ok ids` is the dataset-id
list extracted from a successful response (app.py lines 181-183 and
204-206); `.error` models a raised network/parse error.  (A response with
a falsy `success` returns `[]` in the source, which coincides with
`.ok []` here.) -/
abbrev IdsOracle := String → Except Unit (List String)

/-- `get_datasets_from_group` (app.py lines 171-188): the `except` clause
turns every failure into `[]`. -/
def get_datasets_from_group (svc : IdsOracle) (group_id : String) : List String :=
  match svc group_id with
  | .ok ids => ids
  | .error _ => []

/-- `get_datasets_from_tag` (app.py lines 190-211): same failure policy. -/
def get_datasets_from_tag (svc : IdsOracle) (tag_name : String) : List String :=
  match svc tag_name with
  | .ok ids => ids
  | .error _ => []

/-- A stored workspace value (the record read at app.py lines 64-75; the
fields that play no role in the claims are omitted). -/
structure Workspace where
  name : String
  dataset_ids : List String
  groups : List String
  tags : List String

/-- `resolve_workspace_datasets` (app.py lines 213-232).  `all_dataset_ids`
is a Python `set`, modelled as a duplicate-free list; Python set iteration
order is unspecified, so the particular order produced here carries no
meaning. -/
def resolve_workspace_datasets (groupSvc tagSvc : IdsOracle) (w : Workspace) :
    List String :=
  (w.dataset_ids ++
    w.groups.flatMap (get_datasets_from_group groupSvc) ++
    w.tags.flatMap (get_datasets_from_tag tagSvc)).dedup

/-! ## The search pipeline (`search_workspace`) -/

/-- A geometry dict with `type` and `coordinates` keys.  A falsy or missing
`geometry` is `none` at the feature level. -/
structure Geometry where
  type : String
  coordinates : List ℚ

/-- One GeoJSON feature as the search pipeline sees it. -/
structure Feature where
  geometry : Option Geometry
  properties : List (String × Json)
  dataset_id : Option String := none
  distance_km : Option ℚ := none

/-- Models Python `str(v)` on property values.  Only catalog property values
are ever searched; the rendering of non-string scalars is a documented
modelling choice — no claim depends on the textual form of numbers. -/
def pyStr : Json → String
  | .null => "None"
  | .bool true => "True"
  | .bool false => "False"
  | .num q => toString q.num ++ (if q.den == 1 then "" else "/" ++ toString q.den)
  | .str s => s
  | .arr _ => "<list>"
  | .obj _ => "<dict>"

/-- `search_features` (app.py lines 412-429): blank queries keep everything;
otherwise case-insensitive substring match over the space-joined, lowered
string forms of all non-null property values. -/
def search_features (features : List Feature) (query : String) : List Feature :=
  if query == "" || pyStrip query == "" then features
  else
    let q := pyStrip (pyLower query)
    features.filter (fun f =>
      let txt := joinWithSpace
        (f.properties.filterMap (fun kv =>
          match kv.2 with
          | Json.null => none
          | v => some (pyLower (pyStr v))))
      pyIn q txt)

/-- `convert_utm_to_latlon` (app.py lines 446-461), the acknowledged rough
linear approximation.  Its body is exact rational arithmetic and cannot
raise, so the `except: return None, None` branch is dead in this model;
the result is `(lat, lon)`. -/
def convert_utm_to_latlon (x y : ℚ) : ℚ × ℚ :=
  let x' := x - 500000
  let lon := 11.5 + x' / 111320
  let lat := y / 111320 - 1000
  (lat, lon)

/-- Models `round(distance, 2)` (app.py line 693).  Python rounds half to
even; ties at the half never arise in any claim, so round-half-up is an
adequate exact-rational model. -/
def round2 (q : ℚ) : ℚ := (⌊q * 100 + 1/2⌋ : ℚ) / 100

/-- The body of the `for feature in results:` loop at app.py lines 681-693,
given the reference location `(lat, lon)` and the haversine `dist`
(`calculate_distance` computes with transcendental functions; every claim
is independent of its value, so it enters as an oracle).  `.error` models
an uncaught exception escaping the loop: `coords[0]` / `coords[1]` on a
short list (`IndexError`) and the tuple unpacking
`feature_lon, feature_lat = coords` on a list whose length is not exactly
2 (`ValueError`). -/
def annotateFeature (dist : ℚ → ℚ → ℚ → ℚ → ℚ) (lat lon : ℚ) (f : Feature) :
    Except String Feature :=
  match f.geometry with
  | none => .ok f
  | some g =>
    if g.type == "Point" then
      match g.coordinates.get? 0 with
      | none => .error "IndexError"
      | some c0 =>
        if c0 > 180 then
          match g.coordinates.get? 1 with
          | none => .error "IndexError"
          | some c1 =>
            let p := convert_utm_to_latlon c0 c1
            if p.1 != 0 && p.2 != 0 then
              .ok { f with distance_km := some (round2 (dist lat lon p.1 p.2)) }
            else .ok f
        else
          match g.coordinates with
          | [flon, flat] =>
            if flat != 0 && flon != 0 then
              .ok { f with distance_km := some (round2 (dist lat lon flat flon)) }
            else .ok f
          | _ => .error "ValueError"
    else .ok f

/-- The sort key `x.get('distance_km', float('inf'))` of app.py line 696:
features without a computed distance sort last. -/
def distLE (a b : Feature) : Bool :=
  match a.distance_km, b.distance_km with
  | none, none => true
  | none, some _ => false
  | some _, none => true
  | some x, some y => decide (x ≤ y)

/-- `sorted(results, key=...)`: Python's sort is stable, modelled by
`mergeSort` over the same key order. -/
def sortByDistance (l : List Feature) : List Feature := l.mergeSort distLE

/-! ### Binary64 arithmetic for the sampling stride

The source computes the sampling index in IEEE-754 double precision:
`step = len(features) / max_per_dataset` and `int(i * step)` (app.py lines
662-663).  Float rounding is observable — for `len = 30`,
`max_per_dataset = 22`, `i = 11` Python computes `int(14.999999999999998)
= 14` where exact arithmetic gives 15 — so the division and the
multiplication are modelled by `fl64`, exact round-to-nearest (ties to
even) onto a 53-bit significand.  The exponent is unbounded: overflow to
infinity needs magnitudes ≥ 2^1024, and subnormals magnitudes < 2^-1022,
neither of which a feature count or stride from a list in memory can
reach. -/

/-- Fuel-driven ⌊log₂⌋ on naturals (structural recursion, so concrete
instances evaluate in the kernel). -/
def log2fuel : ℕ → ℕ → ℕ
  | 0, _ => 0
  | fuel + 1, n => if 2 ≤ n then log2fuel fuel (n / 2) + 1 else 0

/-- `⌊log₂ n⌋` for positive `n` (0 at 0). -/
def natLog2 (n : ℕ) : ℕ := log2fuel n n

/-- Decides `2 ^ c ≤ p / q` for positive naturals by cross-multiplication. -/
def pow2le (c : ℤ) (p q : ℕ) : Bool :=
  if 0 ≤ c then decide (q * 2 ^ c.toNat ≤ p) else decide (q ≤ p * 2 ^ (-c).toNat)

/-- `⌊log₂ (p / q)⌋` for positive naturals: the candidate from the integer
logs is off by at most one, corrected by one exact comparison. -/
def floorLog2Rat (p q : ℕ) : ℤ :=
  let c : ℤ := (natLog2 p : ℤ) - (natLog2 q : ℤ)
  if pow2le c p q then c else c - 1

/-- Round `N / D` to the nearest integer, ties to even (`D > 0`). -/
def roundNE (N D : ℕ) : ℕ :=
  let m := N / D
  let r := N % D
  if 2 * r > D then m + 1
  else if 2 * r < D then m
  else if m % 2 = 0 then m else m + 1

/-- Round an exact rational to the nearest binary64 value (53-bit
significand, round half to even, unbounded exponent — see the section
comment).  The scaled significand `q · 2^(52-e)` with `e = ⌊log₂ |q|⌋`
lies in `[2^52, 2^53)` and is rounded to the nearest integer `m`; the
result `± m · 2^(e-52)` is assembled with `mkRat` so that it evaluates in
the kernel. -/
def fl64 (q : ℚ) : ℚ :=
  if q = 0 then 0
  else
    let p := q.num.natAbs
    let d := q.den
    let e := floorLog2Rat p d
    let m := roundNE (p * 2 ^ (52 - e).toNat) (d * 2 ^ (e - 52).toNat)
    let v : ℚ := if 0 ≤ e - 52 then ((m * 2 ^ (e - 52).toNat : ℕ) : ℚ)
                 else mkRat m (2 ^ (52 - e).toNat)
    if q < 0 then -v else v

/-- Exact product of a natural and a rational, in `mkRat` form so that it
evaluates in the kernel (Python's `i * step` converts the int `i` to a
float exactly — every loop index is below 2^53 — and then multiplies). -/
def ratMulNat (i : ℕ) (q : ℚ) : ℚ := mkRat (i * q.num) q.den

/-- The sampling index of app.py line 663: `int(i * step)` with
`step = n / k`, both operations in binary64.  The value is nonnegative,
so `int` truncation coincides with the floor. -/
def sampleIdx (n k i : ℕ) : ℕ :=
  (Rat.floor (fl64 (ratMulNat i (fl64 (mkRat n k))))).toNat

/-- The per-dataset down-sampling of app.py lines 658-663: keep the
features at index `int(i * step)` for `i` in `range(max_per_dataset)`,
with `step` and the products computed in binary64 floating point as the
source does.  A negative `max_per_dataset` makes `range` empty, as in
Python. -/
def sampleEvenly {α : Type} (features : List α) (maxPerDataset : ℤ) : List α :=
  if maxPerDataset < (features.length : ℤ) then
    (List.range maxPerDataset.toNat).filterMap
      (fun i => features.get? (sampleIdx features.length maxPerDataset.toNat i))
  else features

/-- The dataset-loading loop of app.py lines 651-671: fetch, sample, tag
each surviving feature with its dataset id, concatenate.  Per-dataset
feature lists come from the `fetchF` oracle: `fetch_ckan_dataset` is
modelled separately, always returns a value, and the per-dataset
`try`/`except` makes any extraction failure contribute zero features, so
an oracle returning the extracted feature list is faithful. -/
def loadFeatures (fetchF : String → List Feature) (maxPerDataset : ℤ)
    (ids : List String) : List Feature :=
  ids.flatMap (fun ds =>
    (sampleEvenly (fetchF ds) maxPerDataset).map (fun f => { f with dataset_id := some ds }))

/-- `total_features_available` (app.py lines 649-656): counted before
sampling. -/
def totalAvailable (fetchF : String → List Feature) (ids : List String) : ℕ :=
  (ids.map (fun ds => (fetchF ds).length)).sum

/-- One `dataset_metadata` entry: the stored `title` and `name` values. -/
structure MetaEntry where
  title : Json
  name : Json

/-- One iteration of the metadata loop at app.py lines 632-645.  Outcomes:
an exception anywhere (network error at `requests.get`, `JSONDecodeError`
at `.json()`, `AttributeError`/`KeyError` on unexpected shapes) reaches
the `except` handler, which stores the fallback entry
`(title := id, name := '')`; a non-200 status or a falsy `success` flag
stores nothing at all; a successful response stores the `title`/`name`
fields with their defaults. -/
def fetchMetaEntry (metaSvc : HttpOracle) (dataset_id : String) : Option MetaEntry :=
  match metaSvc dataset_id with
  | .error _ => some ⟨.str dataset_id, .str ""⟩
  | .ok r =>
    if r.status == 200 then
      match r.body with
      | .error _ => some ⟨.str dataset_id, .str ""⟩
      | .ok j =>
        match j with
        | .obj fields =>
          if (jGet fields "success").truthy then
            match jLookup fields "result" with
            | some (.obj rf) =>
                some ⟨jGetD rf "title" (.str dataset_id), jGetD rf "name" (.str "")⟩
            | some _ => some ⟨.str dataset_id, .str ""⟩
            | none => some ⟨.str dataset_id, .str ""⟩
          else none
        | _ => some ⟨.str dataset_id, .str ""⟩
    else none

/-- The `dataset_metadata` dict, insertion-ordered over the resolved ids. -/
def buildMeta (metaSvc : HttpOracle) (ids : List String) : List (String × MetaEntry) :=
  ids.filterMap (fun ds => (fetchMetaEntry metaSvc ds).map (fun e => (ds, e)))

/-- Normalize one Python slice bound: a negative index counts from the end,
then both are clamped to `[0, n]`. -/
def pyBound (n : ℕ) (i : ℤ) : ℕ := if i < 0 then (n + i).toNat else min i.toNat n

/-- Python list slicing `l[a:b]` with the default step. -/
def pySlice {α : Type} (l : List α) (a b : ℤ) : List α :=
  (l.take (pyBound l.length b)).drop (pyBound l.length a)

/-- The JSON payload built at app.py lines 704-716 (fields irrelevant to
every claim, such as `workspace_id`, are omitted). -/
structure SearchResponse where
  workspace_name : String
  query : String
  total : ℤ
  count : ℤ
  offset : ℤ
  limit : ℤ
  has_more : Bool
  results : List Feature
  dataset_metadata : List (String × MetaEntry)
  total_features_available : ℕ

/-- Search parameters as parsed at app.py lines 613-618; `latP`/`lonP` are
`none` when the query string has no `lat`/`lon`. -/
structure SearchParams where
  query : String
  latP : Option ℚ
  lonP : Option ℚ
  limit : ℤ
  offset : ℤ
  maxPerDataset : ℤ

/-- The external collaborators of one search request. -/
structure SearchEnv where
  groupSvc : IdsOracle
  tagSvc : IdsOracle
  metaSvc : HttpOracle
  fetchF : String → List Feature
  dist : ℚ → ℚ → ℚ → ℚ → ℚ

/-- The distance/sort stage (app.py lines 679-696).  It runs only when both
`lat` and `lon` are truthy — `if lat and lon:` — and in Python both `None`
and `0.0` are falsy.  On an uncaught per-feature exception the whole
request fails. -/
def searchPipeline (dist : ℚ → ℚ → ℚ → ℚ → ℚ) (latP lonP : Option ℚ)
    (feats : List Feature) : Except String (List Feature) :=
  match latP, lonP with
  | some la, some lo =>
      if la != 0 && lo != 0 then
        (feats.mapM (annotateFeature dist la lo)).map sortByDistance
      else .ok feats
  | _, _ => .ok feats

/-- The result sequence after filtering, distance annotation and sorting,
before pagination — the `results` local of app.py at line 699. -/
def preResults (env : SearchEnv) (w : Workspace) (p : SearchParams) :
    Except String (List Feature) :=
  searchPipeline env.dist p.latP p.lonP
    (search_features
      (loadFeatures env.fetchF (min p.maxPerDataset 500)
        (resolve_workspace_datasets env.groupSvc env.tagSvc w))
      p.query)

/-- `search_workspace` (app.py lines 604-720) after workspace lookup and
query-string parsing: cap the limits, resolve the datasets, build the
metadata map, load with per-dataset sampling, filter by query, annotate
and sort when a truthy reference location is present, paginate.  `.error`
is the `except` at lines 718-720 that produces the HTTP 500 response. -/
def search_workspace (env : SearchEnv) (w : Workspace) (p : SearchParams) :
    Except String SearchResponse :=
  let lim := min p.limit 2000
  let ids := resolve_workspace_datasets env.groupSvc env.tagSvc w
  let dmeta := buildMeta env.metaSvc ids
  match preResults env w p with
  | .error e => .error e
  | .ok results =>
      let total : ℤ := results.length
      let page := pySlice results p.offset (p.offset + lim)
      .ok { workspace_name := w.name
            query := p.query
            total := total
            count := page.length
            offset := p.offset
            limit := lim
            has_more := decide (p.offset + lim < total)
            results := page
            dataset_metadata := dmeta
            total_features_available := totalAvailable env.fetchF ids }

/-! ## Concrete scenario fixtures -/

/-- A catalog id oracle that always raises. -/
def failAll : IdsOracle := fun _ => .error ()

/-- A metadata oracle that always raises. -/
def metaRaise : HttpOracle := fun _ => .error ()

/-- A metadata oracle answering 404 with an unparseable body. -/
def meta404 : HttpOracle := fun _ => .ok ⟨404, "", .error ()⟩

/-- A fetch oracle with no features for any dataset. -/
def fetchNone : String → List Feature := fun _ => []

/-- A distance oracle returning the feature longitude as the "distance" —
used to observe which coordinate pair reached `calculate_distance`. -/
def distProbe : ℚ → ℚ → ℚ → ℚ → ℚ := fun _ _ _ flon => flon

/-- A geometry-less feature carrying one tag property. -/
def plainFeature (tag : String) : Feature := ⟨none, [("n", .str tag)], none, none⟩

/-- Four distinct geometry-less features for every dataset. -/
def fetchFour : String → List Feature :=
  fun _ => [plainFeature "a", plainFeature "b", plainFeature "c", plainFeature "d"]

/-- A Point feature whose coordinate list has a single element. -/
def shortPoint : Feature := ⟨some ⟨"Point", [200]⟩, [], none, none⟩

def fetchShortPoint : String → List Feature := fun _ => [shortPoint]

/-- A well-formed 2-coordinate Point feature. -/
def okPoint : Feature := ⟨some ⟨"Point", [11, 48]⟩, [], none, none⟩

def fetchOkPoint : String → List Feature := fun _ => [okPoint]

/-- A Point feature with x = -200: the x magnitude exceeds 180 on the
negative side. -/
def pointNeg200 : Feature := ⟨some ⟨"Point", [-200, 47]⟩, [], none, none⟩

/-- A one-dataset workspace. -/
def wsD1 : Workspace := ⟨"w", ["d1"], [], []⟩

/-- Plain parameters: empty query, no reference location, default limits. -/
def pPlain : SearchParams := ⟨"", none, none, 500, 0, 200⟩

/-- Parameters with an effective (truthy) reference location. -/
def pRef : SearchParams := ⟨"", some 48, some 11, 500, 0, 200⟩

/-- A search environment with failing catalog oracles and the given
metadata and fetch oracles. -/
def envOf (m : HttpOracle) (f : String → List Feature) : SearchEnv :=
  ⟨failAll, failAll, m, f, distProbe⟩

/-- A CSV-parse oracle returning no rows (unused on non-CSV paths). -/
def parseNone : String → List CsvRow := fun _ => []

/-- A metadata answer advertising a single JSON resource at url `u`. -/
def metaJsonResource : HttpOracle := fun _ =>
  .ok ⟨200, "",
    .ok (.obj [("success", .bool true),
               ("result", .obj [("resources",
                 .arr [.obj [("format", .str "JSON"), ("url", .str "u")]])])])⟩

/-- A content answer whose body parses to a JSON array — valid JSON that is
not a FeatureCollection. -/
def contentArr : HttpOracle := fun _ => .ok ⟨200, "", .ok (.arr [.num 1])⟩

/-! ## Detection scan lemmas -/

theorem detectPass_eq_axisPass (matcher : List String → String → Bool)
    (headers : List String) (acc : Option String × Option String) :
    detectPass matcher headers acc =
      (axisPass matcher lat_patterns headers acc.1,
       axisPass matcher lon_patterns headers acc.2) := by
  induction headers generalizing acc with
  | nil => rfl
  | cons h t ih =>
      simp only [detectPass, axisPass, List.foldl_cons] at *
      exact ih _

theorem axisPass_some (matcher : List String → String → Bool) (pats : List String)
    (headers : List String) (x : String) :
    axisPass matcher pats headers (some x) = some x := by
  induction headers with
  | nil => rfl
  | cons h t ih => simpa [axisPass] using ih

theorem axisPass_cons (matcher : List String → String → Bool) (pats : List String)
    (h : String) (t : List String) (acc : Option String) :
    axisPass matcher pats (h :: t) acc =
      axisPass matcher pats t
        (if acc.isNone && matcher pats (normHeader h) then some h else acc) := rfl

theorem axisPass_none (matcher : List String → String → Bool) (pats : List String)
    (headers : List String) :
    axisPass matcher pats headers none = firstAxisMatch matcher pats headers := by
  induction headers with
  | nil => rfl
  | cons h t ih =>
      rw [axisPass_cons]
      by_cases hm : matcher pats (normHeader h) = true
      · simp [hm, axisPass_some, firstAxisMatch]
      · simp only [Bool.not_eq_true] at hm
        simp only [Option.isNone_none, Bool.true_and, hm, if_neg Bool.false_ne_true, ih]
        simp [firstAxisMatch, hm]

theorem detect_eq_axisSpec (headers : List String) :
    detect_coordinate_columns headers =
      (axisSpec lat_patterns headers, axisSpec lon_patterns headers) := by
  unfold detect_coordinate_columns
  rw [detectPass_eq_axisPass]
  simp only [axisPass_none]
  cases h1 : firstAxisMatch prefixHit lat_patterns headers with
  | none =>
      simp only [Option.isNone_none, Bool.true_or, if_true]
      rw [detectPass_eq_axisPass]
      simp only [axisPass_none]
      cases h2 : firstAxisMatch prefixHit lon_patterns headers with
      | none => simp [axisSpec, h1, h2, axisPass_none, Option.orElse]
      | some b => simp [axisSpec, h1, h2, axisPass_none, axisPass_some, Option.orElse]
  | some a =>
      cases h2 : firstAxisMatch prefixHit lon_patterns headers with
      | none =>
          simp only [Option.isNone_some, Bool.false_or, Option.isNone_none, if_true]
          rw [detectPass_eq_axisPass]
          simp [axisSpec, h1, h2, axisPass_none, axisPass_some, Option.orElse]
      | some b => simp [axisSpec, h1, h2, Option.orElse]

/-! ## Claim C3 — two-pass coordinate-column detection -/

/-- C3: for every header list, detection (over lower-cased, trimmed headers)
selects per axis the first header in original column order with an
equals-or-starts-with pattern hit; the substring pass over the same
pattern lists is consulted only for an axis still undetected after pass 1,
so an exact/prefix candidate always beats a substring-only candidate.
Concretely, `"Latitude "` and `"lat_coord"` each resolve to the latitude
axis, and a prefix match (`"latitude"`) wins over an earlier
substring-only candidate (`"my_lat"`). -/
theorem detection_two_pass_spec :
    (∀ headers, detect_coordinate_columns headers =
      (axisSpec lat_patterns headers, axisSpec lon_patterns headers)) ∧
    detect_coordinate_columns ["Latitude "] = (some "Latitude ", none) ∧
    detect_coordinate_columns ["lat_coord"] = (some "lat_coord", none) ∧
    detect_coordinate_columns ["my_lat", "latitude"] = (some "latitude", none) :=
  ⟨detect_eq_axisSpec, by decide, by decide, by decide⟩

/-! ## Claim C4 — deterministic even-stride sampling -/

theorem filterMap_eq_map_of_some {α β : Type} (xs : List α) (f : α → Option β)
    (g : α → β) (h : ∀ a ∈ xs, f a = some (g a)) : xs.filterMap f = xs.map g := by
  induction xs with
  | nil => rfl
  | cons a t ih =>
      rw [List.filterMap_cons, h a (List.mem_cons_self a t), List.map_cons,
        ih (fun b hb => h b (List.mem_cons_of_mem a hb))]

theorem get?_eq_some_getD {α : Type} [Inhabited α] (l : List α) (n : ℕ)
    (h : n < l.length) : l.get? n = some (l.getD n default) := by
  cases hg : l.get? n with
  | none => exact absurd (List.get?_eq_none.mp hg) (by omega)
  | some v => rw [List.getD_eq_get?, hg]; rfl

theorem log2fuel_spec : ∀ fuel n, 0 < n → n ≤ fuel →
    2 ^ log2fuel fuel n ≤ n ∧ n < 2 ^ (log2fuel fuel n + 1) := by
  intro fuel
  induction fuel with
  | zero => intro n h0 h1; omega
  | succ f ih =>
      intro n h0 h1
      by_cases h2 : 2 ≤ n
      · have hrec := ih (n / 2) (by omega) (by omega)
        obtain ⟨ha, hb⟩ := hrec
        simp only [log2fuel, if_pos h2]
        have e1 : (2 : ℕ) ^ (log2fuel f (n / 2) + 1) = 2 * 2 ^ log2fuel f (n / 2) := by
          ring
        have e2 : (2 : ℕ) ^ (log2fuel f (n / 2) + 1 + 1) = 4 * 2 ^ log2fuel f (n / 2) := by
          ring
        rw [e1] at hb
        rw [e1, e2]
        omega
      · simp only [log2fuel, if_neg h2]
        norm_num
        omega

theorem natLog2_spec (n : ℕ) (h : 0 < n) :
    2 ^ natLog2 n ≤ n ∧ n < 2 ^ (natLog2 n + 1) :=
  log2fuel_spec n n h le_rfl

theorem npow_cast_zpow (t : ℕ) : ((2 ^ t : ℕ) : ℚ) = (2 : ℚ) ^ (t : ℤ) := by
  rw [zpow_natCast]
  push_cast
  ring

theorem pow2le_iff (c : ℤ) (p q : ℕ) (hq : 0 < q) :
    pow2le c p q = true ↔ (2 : ℚ) ^ c ≤ (p : ℚ) / q := by
  have hq0 : (0 : ℚ) < q := by exact_mod_cast hq
  unfold pow2le
  by_cases h : 0 ≤ c
  · rw [if_pos h, decide_eq_true_iff]
    have h2 : (2 : ℚ) ^ c = ((2 ^ c.toNat : ℕ) : ℚ) := by
      rw [npow_cast_zpow]
      congr 1
      omega
    rw [le_div_iff hq0, h2, ← Nat.cast_mul, Nat.cast_le, Nat.mul_comm]
  · rw [if_neg h, decide_eq_true_iff]
    have h2 : (2 : ℚ) ^ c = 1 / ((2 ^ (-c).toNat : ℕ) : ℚ) := by
      rw [npow_cast_zpow, one_div, ← zpow_neg]
      congr 1
      omega
    rw [h2, div_le_div_iff (by positivity) hq0, one_mul, ← Nat.cast_mul, Nat.cast_le]

theorem floorLog2Rat_spec (p q : ℕ) (hp : 0 < p) (hq : 0 < q) :
    (2 : ℚ) ^ floorLog2Rat p q ≤ (p : ℚ) / q ∧
      (p : ℚ) / q < (2 : ℚ) ^ (floorLog2Rat p q + 1) := by
  obtain ⟨hp1, hp2⟩ := natLog2_spec p hp
  obtain ⟨hq1, hq2⟩ := natLog2_spec q hq
  have hq0 : (0 : ℚ) < q := by exact_mod_cast hq
  have h2 : (2 : ℚ) ≠ 0 := by norm_num
  set c : ℤ := (natLog2 p : ℤ) - (natLog2 q : ℤ) with hc
  have hupper : (p : ℚ) / q < (2 : ℚ) ^ (c + 1) := by
    rw [div_lt_iff hq0]
    have hzp : (2 : ℚ) ^ (c + 1) * (2 : ℚ) ^ ((natLog2 q : ℕ) : ℤ) =
        (2 : ℚ) ^ (((natLog2 p + 1 : ℕ) : ℤ)) := by
      rw [← zpow_add₀ h2]
      congr 1
      omega
    calc (p : ℚ) < ((2 ^ (natLog2 p + 1) : ℕ) : ℚ) := by exact_mod_cast hp2
      _ = (2 : ℚ) ^ (((natLog2 p + 1 : ℕ) : ℤ)) := npow_cast_zpow _
      _ = (2 : ℚ) ^ (c + 1) * (2 : ℚ) ^ ((natLog2 q : ℕ) : ℤ) := hzp.symm
      _ ≤ (2 : ℚ) ^ (c + 1) * (q : ℚ) := by
          have hle : (2 : ℚ) ^ ((natLog2 q : ℕ) : ℤ) ≤ (q : ℚ) := by
            rw [← npow_cast_zpow]
            exact_mod_cast hq1
          have hpos : (0 : ℚ) < (2 : ℚ) ^ (c + 1) := by positivity
          exact mul_le_mul_of_nonneg_left hle hpos.le
  have hlower : (2 : ℚ) ^ (c - 1) < (p : ℚ) / q := by
    rw [lt_div_iff hq0]
    have hzp : (2 : ℚ) ^ (c - 1) * (2 : ℚ) ^ (((natLog2 q + 1 : ℕ) : ℤ)) =
        (2 : ℚ) ^ ((natLog2 p : ℕ) : ℤ) := by
      rw [← zpow_add₀ h2]
      congr 1
      omega
    calc (2 : ℚ) ^ (c - 1) * (q : ℚ)
        < (2 : ℚ) ^ (c - 1) * (2 : ℚ) ^ (((natLog2 q + 1 : ℕ) : ℤ)) := by
          have hlt : (q : ℚ) < (2 : ℚ) ^ (((natLog2 q + 1 : ℕ) : ℤ)) := by
            rw [← npow_cast_zpow]
            exact_mod_cast hq2
          have hpos : (0 : ℚ) < (2 : ℚ) ^ (c - 1) := by positivity
          exact mul_lt_mul_of_pos_left hlt hpos
      _ = (2 : ℚ) ^ ((natLog2 p : ℕ) : ℤ) := hzp
      _ ≤ (p : ℚ) := by
          rw [← npow_cast_zpow]
          exact_mod_cast hp1
  unfold floorLog2Rat
  by_cases hcase : pow2le c p q = true
  · rw [if_pos hcase]
    exact ⟨(pow2le_iff c p q hq).mp hcase, hupper⟩
  · rw [if_neg hcase]
    have hlt : (p : ℚ) / q < (2 : ℚ) ^ c :=
      lt_of_not_le (fun hle => hcase ((pow2le_iff c p q hq).mpr hle))
    constructor
    · exact hlower.le
    · simpa using hlt

theorem roundNE_le (N D : ℕ) (hD : 0 < D) :
    (roundNE N D : ℚ) ≤ (N : ℚ) / D + 1 / 2 := by
  have hD0 : (0 : ℚ) < D := by exact_mod_cast hD
  have hmod : N % D < D := Nat.mod_lt _ hD
  have hsplit : (N : ℚ) = (D : ℚ) * ((N / D : ℕ) : ℚ) + ((N % D : ℕ) : ℚ) := by
    exact_mod_cast (Nat.div_add_mod N D).symm
  have hND : (N : ℚ) / D = ((N / D : ℕ) : ℚ) + ((N % D : ℕ) : ℚ) / D := by
    rw [hsplit]
    field_simp
    ring
  have hr0 : (0 : ℚ) ≤ ((N % D : ℕ) : ℚ) / D := by positivity
  simp only [roundNE]
  split_ifs with h1 h2 h3
  · have h1q : (D : ℚ) < 2 * ((N % D : ℕ) : ℚ) := by exact_mod_cast h1
    have hhalf : (1 : ℚ) / 2 ≤ ((N % D : ℕ) : ℚ) / D := by
      rw [div_le_div_iff (by norm_num) hD0]
      linarith
    rw [hND]
    push_cast
    linarith
  · rw [hND]
    linarith
  · rw [hND]
    linarith
  · have heq : 2 * (N % D) = D := by omega
    have hhalf : ((N % D : ℕ) : ℚ) / D = 1 / 2 := by
      rw [div_eq_div_iff hD0.ne' (by norm_num : (2:ℚ) ≠ 0)]
      exact_mod_cast (by omega : (N % D) * 2 = 1 * D)
    rw [hND, hhalf]
    push_cast
    linarith

theorem roundNE_ge (N D : ℕ) (hD : 0 < D) :
    (N : ℚ) / D - 1 / 2 ≤ (roundNE N D : ℚ) := by
  have hD0 : (0 : ℚ) < D := by exact_mod_cast hD
  have hmod : N % D < D := Nat.mod_lt _ hD
  have hsplit : (N : ℚ) = (D : ℚ) * ((N / D : ℕ) : ℚ) + ((N % D : ℕ) : ℚ) := by
    exact_mod_cast (Nat.div_add_mod N D).symm
  have hND : (N : ℚ) / D = ((N / D : ℕ) : ℚ) + ((N % D : ℕ) : ℚ) / D := by
    rw [hsplit]
    field_simp
    ring
  simp only [roundNE]
  split_ifs with h1 h2 h3
  · have hr1 : ((N % D : ℕ) : ℚ) / D ≤ 1 := by
      rw [div_le_one hD0]
      exact_mod_cast hmod.le
    rw [hND]
    push_cast
    linarith
  · have h2q : 2 * ((N % D : ℕ) : ℚ) < (D : ℚ) := by exact_mod_cast h2
    have hhalf : ((N % D : ℕ) : ℚ) / D ≤ 1 / 2 := by
      rw [div_le_div_iff hD0 (by norm_num)]
      linarith
    rw [hND]
    linarith
  · have heq : 2 * (N % D) = D := by omega
    have hhalf : ((N % D : ℕ) : ℚ) / D = 1 / 2 := by
      rw [div_eq_div_iff hD0.ne' (by norm_num : (2:ℚ) ≠ 0)]
      exact_mod_cast (by omega : (N % D) * 2 = 1 * D)
    rw [hND, hhalf]
    linarith
  · have heq : 2 * (N % D) = D := by omega
    have hhalf : ((N % D : ℕ) : ℚ) / D = 1 / 2 := by
      rw [div_eq_div_iff hD0.ne' (by norm_num : (2:ℚ) ≠ 0)]
      exact_mod_cast (by omega : (N % D) * 2 = 1 * D)
    rw [hND, hhalf]
    push_cast
    linarith

theorem fl64_zero : fl64 0 = 0 := by
  simp [fl64]

theorem fl64_pos_eq (q : ℚ) (hq : 0 < q) :
    fl64 q = ((roundNE (q.num.natAbs * 2 ^ ((52 : ℤ) - floorLog2Rat q.num.natAbs q.den).toNat)
        (q.den * 2 ^ (floorLog2Rat q.num.natAbs q.den - 52).toNat) : ℕ) : ℚ) *
      (2 : ℚ) ^ (floorLog2Rat q.num.natAbs q.den - 52) := by
  have hne : q ≠ 0 := ne_of_gt hq
  have hneg : ¬ q < 0 := not_lt.mpr hq.le
  simp only [fl64, if_neg hne, if_neg hneg]
  set e := floorLog2Rat q.num.natAbs q.den with he
  set m := roundNE (q.num.natAbs * 2 ^ ((52 : ℤ) - e).toNat)
      (q.den * 2 ^ (e - 52).toNat) with hm
  by_cases hcase : 0 ≤ e - 52
  · rw [if_pos hcase]
    have ht : (((e - 52).toNat : ℕ) : ℤ) = e - 52 := by omega
    push_cast
    rw [← zpow_natCast (2 : ℚ) (e - 52).toNat, ht]
  · rw [if_neg hcase]
    have ht : -((((52 : ℤ) - e).toNat : ℕ) : ℤ) = e - 52 := by omega
    rw [Rat.mkRat_eq_div]
    push_cast
    rw [← zpow_natCast (2 : ℚ) ((52 : ℤ) - e).toNat, div_eq_mul_inv, ← zpow_neg, ht]

theorem scaledND (q : ℚ) (hq : 0 < q) (e : ℤ) :
    ((q.num.natAbs * 2 ^ ((52 : ℤ) - e).toNat : ℕ) : ℚ) /
      ((q.den * 2 ^ (e - 52).toNat : ℕ) : ℚ) = q * (2 : ℚ) ^ ((52 : ℤ) - e) := by
  have h1 : ((q.num.natAbs : ℕ) : ℚ) = ((q.num : ℤ) : ℚ) := by
    rw [← Int.natAbs_of_nonneg (Rat.num_pos.mpr hq).le, Int.cast_natCast, Int.natAbs_ofNat]
  have hden0 : ((q.den : ℕ) : ℚ) ≠ 0 := by
    exact_mod_cast q.den_nz
  by_cases hs : 0 ≤ (52 : ℤ) - e
  · have ht : (e - 52).toNat = 0 := by omega
    rw [ht, pow_zero, mul_one]
    push_cast
    rw [h1]
    conv_rhs => rw [← Rat.num_div_den q]
    rw [← zpow_natCast (2 : ℚ) ((52 : ℤ) - e).toNat,
      show (((52 : ℤ) - e).toNat : ℤ) = 52 - e from by omega]
    field_simp
  · have ht : ((52 : ℤ) - e).toNat = 0 := by omega
    rw [ht, pow_zero, mul_one]
    push_cast
    rw [h1]
    conv_rhs => rw [← Rat.num_div_den q]
    rw [← zpow_natCast (2 : ℚ) (e - 52).toNat,
      show ((e - (52 : ℤ)).toNat : ℤ) = e - 52 from by omega,
      show ((52 : ℤ) - e) = -(e - 52) from by ring, zpow_neg]
    have hz : ((2 : ℚ) ^ (e - 52)) ≠ 0 := by
      apply zpow_ne_zero
      norm_num
    field_simp

theorem fl64_le (q : ℚ) (hq : 0 < q) : fl64 q ≤ q + q / 2 ^ 53 := by
  have hp0 : 0 < q.num.natAbs := Int.natAbs_pos.mpr (ne_of_gt (Rat.num_pos.mpr hq))
  have hd0 : 0 < q.den := q.pos
  have hqpd : ((q.num.natAbs : ℕ) : ℚ) / ((q.den : ℕ) : ℚ) = q := by
    rw [show ((q.num.natAbs : ℕ) : ℚ) = ((q.num : ℤ) : ℚ) from by
      rw [← Int.natAbs_of_nonneg (Rat.num_pos.mpr hq).le, Int.cast_natCast, Int.natAbs_ofNat]]
    exact Rat.num_div_den q
  set e := floorLog2Rat q.num.natAbs q.den with he
  obtain ⟨hel, heu⟩ := floorLog2Rat_spec q.num.natAbs q.den hp0 hd0
  rw [hqpd] at hel heu
  set N := q.num.natAbs * 2 ^ ((52 : ℤ) - e).toNat with hN
  set D := q.den * 2 ^ (e - 52).toNat with hD
  have hD0 : 0 < D := by positivity
  have hNDval : (N : ℚ) / D = q * (2 : ℚ) ^ ((52 : ℤ) - e) := scaledND q hq e
  have hrle := roundNE_le N D hD0
  have hpow : (0 : ℚ) < (2 : ℚ) ^ (e - 52) := by positivity
  have h2nz : (2 : ℚ) ≠ 0 := by norm_num
  rw [fl64_pos_eq q hq]
  calc ((roundNE N D : ℕ) : ℚ) * (2 : ℚ) ^ (e - 52)
      ≤ ((N : ℚ) / D + 1 / 2) * (2 : ℚ) ^ (e - 52) :=
        mul_le_mul_of_nonneg_right hrle hpow.le
    _ = q * ((2 : ℚ) ^ ((52 : ℤ) - e) * (2 : ℚ) ^ (e - 52)) + 1 / 2 * (2 : ℚ) ^ (e - 52) := by
        rw [hNDval]; ring
    _ = q + 1 / 2 * (2 : ℚ) ^ (e - 52) := by
        rw [← zpow_add₀ h2nz]
        norm_num
    _ ≤ q + q / 2 ^ 53 := by
        have h1 : (1 / 2 : ℚ) * (2 : ℚ) ^ (e - 52) = (2 : ℚ) ^ (e - 53) := by
          rw [show e - 53 = -1 + (e - 52) from by ring, zpow_add₀ h2nz]
          norm_num
        have h2 : (2 : ℚ) ^ (e - 53) ≤ q / 2 ^ 53 := by
          rw [show e - 53 = e + -53 from by ring, zpow_add₀ h2nz, div_eq_mul_inv]
          have h53 : (2 : ℚ) ^ (-53 : ℤ) = ((2 : ℚ) ^ (53 : ℕ))⁻¹ := by
            rw [zpow_neg, ← zpow_natCast (2 : ℚ) 53]
            norm_num
          rw [h53]
          exact mul_le_mul_of_nonneg_right hel (by positivity)
        rw [h1]
        linarith

theorem fl64_ge (q : ℚ) (hq : 0 < q) : q - q / 2 ^ 53 ≤ fl64 q := by
  have hp0 : 0 < q.num.natAbs := Int.natAbs_pos.mpr (ne_of_gt (Rat.num_pos.mpr hq))
  have hd0 : 0 < q.den := q.pos
  have hqpd : ((q.num.natAbs : ℕ) : ℚ) / ((q.den : ℕ) : ℚ) = q := by
    rw [show ((q.num.natAbs : ℕ) : ℚ) = ((q.num : ℤ) : ℚ) from by
      rw [← Int.natAbs_of_nonneg (Rat.num_pos.mpr hq).le, Int.cast_natCast, Int.natAbs_ofNat]]
    exact Rat.num_div_den q
  set e := floorLog2Rat q.num.natAbs q.den with he
  obtain ⟨hel, heu⟩ := floorLog2Rat_spec q.num.natAbs q.den hp0 hd0
  rw [hqpd] at hel heu
  set N := q.num.natAbs * 2 ^ ((52 : ℤ) - e).toNat with hN
  set D := q.den * 2 ^ (e - 52).toNat with hD
  have hD0 : 0 < D := by positivity
  have hNDval : (N : ℚ) / D = q * (2 : ℚ) ^ ((52 : ℤ) - e) := scaledND q hq e
  have hrge := roundNE_ge N D hD0
  have hpow : (0 : ℚ) < (2 : ℚ) ^ (e - 52) := by positivity
  have h2nz : (2 : ℚ) ≠ 0 := by norm_num
  rw [fl64_pos_eq q hq]
  calc q - q / 2 ^ 53
      ≤ q - 1 / 2 * (2 : ℚ) ^ (e - 52) := by
        have h1 : (1 / 2 : ℚ) * (2 : ℚ) ^ (e - 52) = (2 : ℚ) ^ (e - 53) := by
          rw [show e - 53 = -1 + (e - 52) from by ring, zpow_add₀ h2nz]
          norm_num
        have h2 : (2 : ℚ) ^ (e - 53) ≤ q / 2 ^ 53 := by
          rw [show e - 53 = e + -53 from by ring, zpow_add₀ h2nz, div_eq_mul_inv]
          have h53 : (2 : ℚ) ^ (-53 : ℤ) = ((2 : ℚ) ^ (53 : ℕ))⁻¹ := by
            rw [zpow_neg, ← zpow_natCast (2 : ℚ) 53]
            norm_num
          rw [h53]
          exact mul_le_mul_of_nonneg_right hel (by positivity)
        rw [h1]
        linarith
    _ = q * ((2 : ℚ) ^ ((52 : ℤ) - e) * (2 : ℚ) ^ (e - 52)) - 1 / 2 * (2 : ℚ) ^ (e - 52) := by
        rw [← zpow_add₀ h2nz]
        norm_num
    _ = ((N : ℚ) / D - 1 / 2) * (2 : ℚ) ^ (e - 52) := by
        rw [hNDval]; ring
    _ ≤ ((roundNE N D : ℕ) : ℚ) * (2 : ℚ) ^ (e - 52) :=
        mul_le_mul_of_nonneg_right hrge hpow.le

theorem fl64_pos (q : ℚ) (hq : 0 < q) : 0 < fl64 q := by
  have h := fl64_ge q hq
  have h2 : q / 2 ^ 53 < q := div_lt_self hq (by norm_num)
  linarith

theorem ratMulNat_eq (i : ℕ) (q : ℚ) : ratMulNat i q = (i : ℚ) * q := by
  rw [ratMulNat, Rat.mkRat_eq_div]
  push_cast
  rw [mul_div_assoc, Rat.num_div_den]

theorem sampleIdx_lt (n k i : ℕ) (hk : k < n) (hik : i < k) (hbound : k ≤ 2 ^ 51) :
    sampleIdx n k i < n := by
  have hk0 : 0 < k := by omega
  have hn0 : 0 < n := by omega
  simp only [sampleIdx]
  by_cases hi0 : i = 0
  · subst hi0
    rw [show ratMulNat 0 (fl64 (mkRat n k)) = 0 from by rw [ratMulNat_eq]; norm_num,
      fl64_zero]
    have h0 : (Rat.floor (0 : ℚ)).toNat = 0 := rfl
    omega
  · have hi1 : 1 ≤ i := by omega
    set q0 : ℚ := mkRat n k with hq0
    have hq0v : q0 = (n : ℚ) / (k : ℚ) := by
      rw [hq0, Rat.mkRat_eq_div, Int.cast_natCast]
    have hnq : (0 : ℚ) < (n : ℚ) := by exact_mod_cast hn0
    have hkq : (0 : ℚ) < (k : ℚ) := by exact_mod_cast hk0
    have hq0pos : 0 < q0 := by
      rw [hq0v]
      positivity
    set s : ℚ := fl64 q0 with hs
    have hspos : 0 < s := fl64_pos q0 hq0pos
    have hsle : s ≤ q0 + q0 / 2 ^ 53 := fl64_le q0 hq0pos
    set y : ℚ := ratMulNat i s with hy
    have hyv : y = (i : ℚ) * s := ratMulNat_eq i s
    have hiqpos : (0 : ℚ) < (i : ℚ) := by exact_mod_cast hi1
    have hypos : 0 < y := by
      rw [hyv]
      exact mul_pos hiqpos hspos
    set x : ℚ := fl64 y with hx
    have hxle : x ≤ y + y / 2 ^ 53 := fl64_le y hypos
    have hiq : (i : ℚ) ≤ (k : ℚ) - 1 := by
      have h2 : (i : ℚ) + 1 ≤ (k : ℚ) := by exact_mod_cast hik
      linarith
    have hkb : (k : ℚ) ≤ 2 ^ 51 := by exact_mod_cast hbound
    have key : x < (n : ℚ) := by
      have e1 : y ≤ (i : ℚ) * (q0 * (1 + 1 / 2 ^ 53)) := by
        rw [hyv]
        refine mul_le_mul_of_nonneg_left ?_ hiqpos.le
        calc s ≤ q0 + q0 / 2 ^ 53 := hsle
          _ = q0 * (1 + 1 / 2 ^ 53) := by ring
      have e3 : x ≤ (i : ℚ) * q0 * (1 + 1 / 2 ^ 53) ^ 2 := by
        calc x ≤ y + y / 2 ^ 53 := hxle
          _ = y * (1 + 1 / 2 ^ 53) := by ring
          _ ≤ ((i : ℚ) * (q0 * (1 + 1 / 2 ^ 53))) * (1 + 1 / 2 ^ 53) :=
              mul_le_mul_of_nonneg_right e1 (by positivity)
          _ = (i : ℚ) * q0 * (1 + 1 / 2 ^ 53) ^ 2 := by ring
      have e4 : (i : ℚ) * q0 ≤ ((k : ℚ) - 1) * ((n : ℚ) / (k : ℚ)) := by
        rw [hq0v]
        exact mul_le_mul_of_nonneg_right hiq (by positivity)
      have e5 : x ≤ ((k : ℚ) - 1) * ((n : ℚ) / (k : ℚ)) * (1 + 1 / 2 ^ 53) ^ 2 := by
        calc x ≤ (i : ℚ) * q0 * (1 + 1 / 2 ^ 53) ^ 2 := e3
          _ ≤ _ := mul_le_mul_of_nonneg_right e4 (by positivity)
      have e6 : ((k : ℚ) - 1) * (1 + 1 / 2 ^ 53) ^ 2 < (k : ℚ) := by
        have h1 : ((k : ℚ) - 1) * (1 + 1 / 2 ^ 53) ^ 2
            = (k : ℚ) - 1 + ((k : ℚ) - 1) * (2 / 2 ^ 53 + 1 / 2 ^ 106) := by ring
        have h2 : ((k : ℚ) - 1) * (2 / 2 ^ 53 + 1 / 2 ^ 106) < 1 := by
          calc ((k : ℚ) - 1) * (2 / 2 ^ 53 + 1 / 2 ^ 106)
              ≤ ((2 : ℚ) ^ 51 - 1) * (2 / 2 ^ 53 + 1 / 2 ^ 106) :=
                mul_le_mul_of_nonneg_right (by linarith) (by positivity)
            _ < 1 := by norm_num
        rw [h1]
        linarith
      have e7 : ((k : ℚ) - 1) * ((n : ℚ) / (k : ℚ)) * (1 + 1 / 2 ^ 53) ^ 2 < (n : ℚ) := by
        have hre : ((k : ℚ) - 1) * ((n : ℚ) / (k : ℚ)) * (1 + 1 / 2 ^ 53) ^ 2
            = ((k : ℚ) - 1) * (1 + 1 / 2 ^ 53) ^ 2 * ((n : ℚ) / (k : ℚ)) := by ring
        rw [hre]
        calc ((k : ℚ) - 1) * (1 + 1 / 2 ^ 53) ^ 2 * ((n : ℚ) / (k : ℚ))
            < (k : ℚ) * ((n : ℚ) / (k : ℚ)) :=
              mul_lt_mul_of_pos_right e6 (by positivity)
          _ = (n : ℚ) := by field_simp
      linarith
    have hfl : Rat.floor x < (n : ℤ) := by
      by_contra hcon
      push_neg at hcon
      have hle : ((n : ℤ) : ℚ) ≤ x := Rat.le_floor.mp hcon
      have hle2 : (n : ℚ) ≤ x := by exact_mod_cast hle
      linarith
    omega

/-- C4 (amended): for k = maxPerDataset < n features with k ≤ 2^51, sampling
returns exactly k features; element i is the feature at index
`int(i * (n/k))` computed in binary64 arithmetic (two roundings, modelled by
`fl64`: the quotient n/k is rounded, then the product i * (n/k)), which can
differ by one from the exact truncated index i*n/k; sampling is a pure
function of its input, hence deterministic. -/
theorem sampling_float_stride {α : Type} (l : List α) (k : ℕ)
    (hk : ((k : ℕ) : ℤ) < ((l.length : ℕ) : ℤ)) (hbound : k ≤ 2 ^ 51) :
    (sampleEvenly l ((k : ℕ) : ℤ)).length = k ∧
    (∀ i : ℕ, i < k →
      (sampleEvenly l ((k : ℕ) : ℤ)).get? i = l.get? (sampleIdx l.length k i)) ∧
    sampleEvenly l ((k : ℕ) : ℤ) = sampleEvenly l ((k : ℕ) : ℤ) := by
  have hkn : k < l.length := by exact_mod_cast hk
  have h0 : 0 < l.length := by omega
  have hunfold : sampleEvenly l ((k : ℕ) : ℤ)
      = (List.range k).filterMap (fun i => l.get? (sampleIdx l.length k i)) := by
    rw [sampleEvenly, if_pos hk]
    rfl
  have hfs : ∀ i ∈ List.range k, l.get? (sampleIdx l.length k i)
      = some ((l.get? (sampleIdx l.length k i)).getD (l.get ⟨0, h0⟩)) := by
    intro i hi
    have hi' : i < k := List.mem_range.mp hi
    have hidx : sampleIdx l.length k i < l.length :=
      sampleIdx_lt l.length k i hkn hi' hbound
    cases hg : l.get? (sampleIdx l.length k i) with
    | none => exact absurd (List.get?_eq_none.mp hg) (by omega)
    | some v => rfl
  have hmap : (List.range k).filterMap (fun i => l.get? (sampleIdx l.length k i))
      = (List.range k).map
          (fun i => (l.get? (sampleIdx l.length k i)).getD (l.get ⟨0, h0⟩)) :=
    filterMap_eq_map_of_some _ _ _ hfs
  refine ⟨?_, ?_, rfl⟩
  · rw [hunfold, hmap, List.length_map, List.length_range]
  · intro i hi
    rw [hunfold, hmap, List.get?_map, List.get?_range hi]
    exact (hfs i (List.mem_range.mpr hi)).symm

/-- C4 counterexample (to the original exact-index reading): sampling 30
features down to 22, the element at position 11 is feature 14 — Python's
`int(11 * (30/22))` on binary64 floats gives 14 — whereas the exact
truncated fractional index is `11*30/22 = 15`. -/
theorem sampling_float_index_ce :
    (sampleEvenly (List.range 30) ((22 : ℕ) : ℤ)).get? 11 = some 14 ∧
    11 * 30 / 22 = 15 ∧
    (sampleEvenly (List.range 30) ((22 : ℕ) : ℤ)).get? 11 ≠ some (11 * 30 / 22) := by
  refine ⟨by decide, by decide, by decide⟩

/-- C4 witness: 5 features sampled down to 3 gives a 3-element list whose
element at position 1 is the feature at the binary64 stride index
`sampleIdx 5 3 1`; concretely the sample of [10, 20, 30, 40, 50] is
[10, 20, 40] (here the float index at i = 2 is 3, where the exact stride
would also give 3). -/
theorem sampling_float_stride_witness :
    (sampleEvenly [10, 20, 30, 40, 50] ((3 : ℕ) : ℤ)).length = 3 ∧
    (sampleEvenly [10, 20, 30, 40, 50] ((3 : ℕ) : ℤ)).get? 1
      = [10, 20, 30, 40, 50].get? (sampleIdx 5 3 1) ∧
    sampleEvenly [10, 20, 30, 40, 50] ((3 : ℕ) : ℤ) = [10, 20, 40] := by
  obtain ⟨h1, h2, h3⟩ :=
    sampling_float_stride [10, 20, 30, 40, 50] 3 (by decide) (by norm_num)
  exact ⟨h1, h2 1 (by decide), by decide⟩

/-! ## Claim C7 — workspace resolution -/

/-- C7: resolution returns a duplicate-free collection whose members are
exactly the union of the direct dataset ids, the member ids of each
referenced group, and the ids matching each referenced tag; a failing
group or tag lookup contributes zero datasets and, resolution being total,
no error reaches the caller. -/
theorem resolve_dedup_union (groupSvc tagSvc : IdsOracle) (w : Workspace) :
    (resolve_workspace_datasets groupSvc tagSvc w).Nodup ∧
    (∀ d, d ∈ resolve_workspace_datasets groupSvc tagSvc w ↔
      (d ∈ w.dataset_ids ∨
       (∃ g ∈ w.groups, d ∈ get_datasets_from_group groupSvc g) ∨
       (∃ t ∈ w.tags, d ∈ get_datasets_from_tag tagSvc t))) ∧
    (∀ g, groupSvc g = .error () → get_datasets_from_group groupSvc g = []) ∧
    (∀ t, tagSvc t = .error () → get_datasets_from_tag tagSvc t = []) := by
  refine ⟨List.nodup_dedup _, ?_, ?_, ?_⟩
  · intro d
    simp [resolve_workspace_datasets, List.mem_dedup, List.mem_append,
      List.mem_flatMap, or_assoc]
  · intro g hg
    simp [get_datasets_from_group, hg]
  · intro t ht
    simp [get_datasets_from_tag, ht]

/-- C7 witness: with every catalog oracle failing, the group selector
contributes zero datasets, and a dataset id listed twice directly still
appears (deduplicated) in the resolution. -/
theorem resolve_dedup_union_witness :
    get_datasets_from_group failAll "g0" = [] ∧
    "a" ∈ resolve_workspace_datasets failAll failAll ⟨"w", ["a", "a"], ["g0"], []⟩ :=
  ⟨(resolve_dedup_union failAll failAll ⟨"w", ["a", "a"], ["g0"], []⟩).2.2.1 "g0" rfl,
   ((resolve_dedup_union failAll failAll ⟨"w", ["a", "a"], ["g0"], []⟩).2.1 "a").mpr
     (Or.inl (by decide))⟩

/-! ## Claim C6 — CSV row conversion -/

/-- C6: a row whose two detected coordinate cells are non-blank and parse as
decimals after normalizing the comma decimal separator yields a Point
feature with coordinates `[lon, lat]` and a property map of all other
columns (coordinate columns excluded); a row with a blank coordinate cell
or an unparsable coordinate cell yields nothing; and a skipped row is
dropped without affecting the conversion of the remaining rows.
Concretely, row `(lat: "48,1", lon: "11,6", name: "X")` yields coordinates
`[11.6, 48.1]` and properties `(name: "X")`. -/
theorem csv_row_conversion :
    (rowFeature "lat" "lon" [("lat", some "48,1"), ("lon", some "11,6"), ("name", some "X")] =
      some (csvFeature (mkRat 116 10) (mkRat 481 10) [("name", .str "X")])) ∧
    (∀ (latCol lonCol : String) (row : CsvRow) (ls os : String) (la lo : ℚ),
      rowGet row latCol = some ls → rowGet row lonCol = some os →
      pyStrip ls ≠ "" → pyStrip os ≠ "" →
      pyFloat? (commaToDot (pyStrip ls)) = some la →
      pyFloat? (commaToDot (pyStrip os)) = some lo →
      rowFeature latCol lonCol row = some (csvFeature lo la (rowProps latCol lonCol row))) ∧
    (∀ (latCol lonCol : String) (row : CsvRow) (ls : String),
      rowGet row latCol = some ls → pyStrip ls = "" →
      rowFeature latCol lonCol row = none) ∧
    (∀ (latCol lonCol : String) (row : CsvRow) (ls os : String),
      rowGet row latCol = some ls → rowGet row lonCol = some os →
      pyStrip ls ≠ "" → pyStrip os ≠ "" →
      pyFloat? (commaToDot (pyStrip ls)) = none →
      rowFeature latCol lonCol row = none) ∧
    (∀ (latCol lonCol : String) (pre post : List CsvRow) (bad : CsvRow),
      rowFeature latCol lonCol bad = none →
      (pre ++ bad :: post).filterMap (rowFeature latCol lonCol) =
        (pre ++ post).filterMap (rowFeature latCol lonCol)) := by
  refine ⟨by rfl, ?_, ?_, ?_, ?_⟩
  · intro latCol lonCol row ls os la lo h1 h2 h3 h4 h5 h6
    simp only [rowFeature, h1, h2, Option.bind_eq_bind, Option.some_bind]
    rw [if_neg (by simp [h3, h4])]
    simp [h5, h6]
  · intro latCol lonCol row ls h1 h2
    simp [rowFeature, h1, h2]
  · intro latCol lonCol row ls os h1 h2 h3 h4 h5
    simp only [rowFeature, h1, h2, Option.bind_eq_bind, Option.some_bind]
    rw [if_neg (by simp [h3, h4])]
    simp [h5]
  · intro latCol lonCol pre post bad h
    simp [List.filterMap_append, List.filterMap_cons, h]

/-- C6 witness: a row with padded comma-decimal cells and a `None` extra
column converts to the expected feature. -/
theorem csv_row_conversion_witness :
    rowFeature "lat" "lon" [("lat", some " 1,5 "), ("lon", some "2"), ("e", none)] =
      some (csvFeature (mkRat 2 1) (mkRat 15 10) [("e", Json.null)]) :=
  csv_row_conversion.2.1 "lat" "lon"
    [("lat", some " 1,5 "), ("lon", some "2"), ("e", none)]
    " 1,5 " "2" (mkRat 15 10) (mkRat 2 1)
    rfl rfl (by decide) (by decide) rfl rfl

/-! ## Claim C1 — projected-coordinate branch condition -/

theorem round2_neg200 : round2 (-200) = -200 := by
  have hf : ⌊((-200 : ℚ) * 100 + 1/2)⌋ = -20000 := by
    rw [Int.floor_eq_iff]; norm_num
  rw [round2, hf]
  norm_num

/-- C1 counterexample: with reference location (48, 11) and the
longitude-observing distance oracle, the surviving Point with raw
x = -200 — whose x magnitude exceeds 180 — is not run through the
approximate reprojection: the attached distance observes the raw pair
read directly as [lon, lat] (value -200), while the reprojected pair
would have produced a different value (≈ 7.01). -/
theorem projected_branch_signed_ce :
    annotateFeature distProbe 48 11 pointNeg200 =
      .ok { pointNeg200 with distance_km := some (-200) } ∧
    round2 (distProbe 48 11 (convert_utm_to_latlon (-200) 47).1
        (convert_utm_to_latlon (-200) 47).2) ≠ -200 := by
  constructor
  · have hx : ¬ ((-200 : ℚ) > 180) := by norm_num
    have h1 : (47 : ℚ) ≠ 0 := by norm_num
    have h2 : (-200 : ℚ) ≠ 0 := by norm_num
    simp [annotateFeature, pointNeg200, hx, h1, h2, distProbe, round2_neg200]
  · have hval : (convert_utm_to_latlon (-200) 47).2 = 11.5 + (-500200) / 111320 := by
      norm_num [convert_utm_to_latlon]
    have hf : ⌊((11.5 + (-500200 : ℚ) / 111320) * 100 + 1/2)⌋ = 701 := by
      rw [Int.floor_eq_iff]; norm_num
    rw [distProbe, hval, round2, hf]
    norm_num

/-- C1 amended: for a surviving 2-coordinate Point, the raw pair is run
through the approximate reprojection iff the signed raw x-coordinate
exceeds 180 (`coords[0] > 180`) — otherwise, including every
x-coordinate below -180, the pair is read directly as [lon, lat] — and
the attached `distance_km` is the rounded distance-oracle value on the
resulting geographic pair (the truthiness hypotheses exclude the source's
`if feature_lat and feature_lon:` zero-coordinate quirk, which is outside
this claim). -/
theorem projected_branch_signed (dist : ℚ → ℚ → ℚ → ℚ → ℚ) (la lo x y : ℚ)
    (props : List (String × Json)) (did : Option String)
    (hproj : 180 < x →
      (convert_utm_to_latlon x y).1 ≠ 0 ∧ (convert_utm_to_latlon x y).2 ≠ 0)
    (hdir : ¬ 180 < x → y ≠ 0 ∧ x ≠ 0) :
    annotateFeature dist la lo ⟨some ⟨"Point", [x, y]⟩, props, did, none⟩ =
      .ok ⟨some ⟨"Point", [x, y]⟩, props, did,
           some (round2 (if 180 < x
             then dist la lo (convert_utm_to_latlon x y).1 (convert_utm_to_latlon x y).2
             else dist la lo y x))⟩ := by
  by_cases hx : (180 : ℚ) < x
  · obtain ⟨h1, h2⟩ := hproj hx
    simp [annotateFeature, hx, h1, h2]
  · obtain ⟨h1, h2⟩ := hdir hx
    simp [annotateFeature, hx, h1, h2]

/-- C1 amended witness: x = 200 (> 180) is run through the reprojection. -/
theorem projected_branch_signed_witness :
    annotateFeature distProbe 48 11 ⟨some ⟨"Point", [200, 47]⟩, [], none, none⟩ =
      .ok ⟨some ⟨"Point", [200, 47]⟩, [], none,
           some (round2 (if (180 : ℚ) < 200
             then distProbe 48 11 (convert_utm_to_latlon 200 47).1
                    (convert_utm_to_latlon 200 47).2
             else distProbe 48 11 47 200))⟩ :=
  projected_branch_signed distProbe 48 11 200 47 [] none
    (fun _ => ⟨by norm_num [convert_utm_to_latlon], by norm_num [convert_utm_to_latlon]⟩)
    (fun h => absurd (by norm_num) h)

/-! ## Claim C9 — zero reference coordinates disable the distance stage -/

theorem searchPipeline_zero (dist : ℚ → ℚ → ℚ → ℚ → ℚ) (latP lonP : Option ℚ)
    (h : latP = some 0 ∨ lonP = some 0) (fs : List Feature) :
    searchPipeline dist latP lonP fs = .ok fs := by
  rcases h with h | h
  · subst h
    cases lonP with
    | none => rfl
    | some lo => simp [searchPipeline]
  · subst h
    cases latP with
    | none => rfl
    | some la => simp [searchPipeline]

/-- C9: a supplied reference latitude or longitude equal to 0 disables the
whole distance stage — no annotation, no distance sort — and the request
behaves exactly as if no reference location had been supplied at all
(`if lat and lon:` at app.py line 680: in Python both `None` and `0.0`
are falsy). -/
theorem zero_reference_like_absent (env : SearchEnv) (w : Workspace) (p : SearchParams)
    (h : p.latP = some 0 ∨ p.lonP = some 0) :
    search_workspace env w p =
      search_workspace env w { p with latP := none, lonP := none } := by
  have h1 : preResults env w p =
      .ok (search_features
        (loadFeatures env.fetchF (min p.maxPerDataset 500)
          (resolve_workspace_datasets env.groupSvc env.tagSvc w)) p.query) := by
    unfold preResults
    exact searchPipeline_zero _ _ _ h _
  have h2 : preResults env w { p with latP := none, lonP := none } =
      .ok (search_features
        (loadFeatures env.fetchF (min p.maxPerDataset 500)
          (resolve_workspace_datasets env.groupSvc env.tagSvc w)) p.query) := rfl
  unfold search_workspace
  rw [h1, h2]

/-- C9 witness: a search with reference latitude 0 (and longitude 5) equals
the same search without any reference location. -/
theorem zero_reference_like_absent_witness :
    search_workspace (envOf metaRaise fetchFour) wsD1 ⟨"", some 0, some 5, 500, 0, 200⟩ =
      search_workspace (envOf metaRaise fetchFour) wsD1 ⟨"", none, none, 500, 0, 200⟩ :=
  zero_reference_like_absent (envOf metaRaise fetchFour) wsD1
    ⟨"", some 0, some 5, 500, 0, 200⟩ (Or.inl rfl)

/-! ## Claim C5 — pagination -/

theorem pySlice_length {α : Type} (l : List α) (o k : ℤ) (ho : 0 ≤ o) (hk : 0 ≤ k) :
    ((pySlice l o (o + k)).length : ℤ) = min k (max 0 ((l.length : ℤ) - o)) := by
  unfold pySlice pyBound
  rw [if_neg (by omega), if_neg (by omega)]
  simp only [List.length_drop, List.length_take]
  omega

/-- C5 amended: `total` is the result count after filtering/annotation/sort
and before slicing, and the returned page is the Python slice
`results[offset : offset + limit]` (with `limit` the capped
`min limit 2000` the response reports); for all NONNEGATIVE offsets and
limits the page length is `min(limit, max(0, total - offset))`, and
`has_more` is true iff `offset + limit < total`.  (For a negative offset
the Python slice counts from the end of the list and the page-length
formula fails — see the counterexample.) -/
theorem pagination_spec (env : SearchEnv) (w : Workspace) (p : SearchParams)
    (ho : 0 ≤ p.offset) (hl : 0 ≤ p.limit) :
    (search_workspace env w p).map (fun r => r.total) =
      (preResults env w p).map (fun rs => (rs.length : ℤ)) ∧
    (search_workspace env w p).map (fun r => r.results) =
      (preResults env w p).map
        (fun rs => pySlice rs p.offset (p.offset + min p.limit 2000)) ∧
    (search_workspace env w p).map (fun r => (r.count, r.has_more)) =
      (preResults env w p).map
        (fun rs => (min (min p.limit 2000) (max 0 ((rs.length : ℤ) - p.offset)),
                    decide (p.offset + min p.limit 2000 < (rs.length : ℤ)))) := by
  unfold search_workspace
  cases hpre : preResults env w p with
  | error e => simp [hpre, Except.map]
  | ok rs =>
      have hlen := pySlice_length rs p.offset (min p.limit 2000) ho (by omega)
      refine ⟨by simp [hpre, Except.map], by simp [hpre, Except.map], ?_⟩
      simp only [hpre, Except.map]
      rw [hlen]

/-- C5 counterexample: with 4 results, offset -3 and limit 5 the request
succeeds with a 1-element page — Python slicing counts the negative offset
from the end (`results[-3:2]`) — not the
`min(limit, max(0, total - offset)) = 5` elements the claim's formula
demands for all offsets. -/
theorem pagination_negative_offset_ce :
    (search_workspace (envOf metaRaise fetchFour) wsD1 ⟨"", none, none, 5, -3, 200⟩).map
        (fun r => (r.total, r.count, decide (r.count = min r.limit (max 0 (r.total - r.offset))))) =
      .ok (4, 1, false) := by rfl

/-- C5 witness: offset 1, limit 2 over 4 results gives a page of
`min(2, max(0, 4-1)) = 2` elements with `has_more` true. -/
theorem pagination_spec_witness :
    (search_workspace (envOf metaRaise fetchFour) wsD1 ⟨"", none, none, 2, 1, 200⟩).map
        (fun r => (r.count, r.has_more)) =
      (preResults (envOf metaRaise fetchFour) wsD1 ⟨"", none, none, 2, 1, 200⟩).map
        (fun rs => (min (min (2 : ℤ) 2000) (max 0 ((rs.length : ℤ) - 1)),
                    decide ((1 : ℤ) + min (2 : ℤ) 2000 < (rs.length : ℤ)))) :=
  (pagination_spec (envOf metaRaise fetchFour) wsD1 ⟨"", none, none, 2, 1, 200⟩
    (by decide) (by decide)).2.2

/-! ## Claim C2 — dataset_metadata entries -/

theorem buildMeta_lookup_notmem (svc : HttpOracle) (ids : List String) (ds : String)
    (h : ds ∉ ids) : List.lookup ds (buildMeta svc ids) = none := by
  induction ids with
  | nil => rfl
  | cons a t ih =>
      have hne : (ds == a) = false :=
        beq_eq_false_iff_ne.mpr (fun e => h (e ▸ List.mem_cons_self a t))
      have hmem : ds ∉ t := fun m => h (List.mem_cons_of_mem a m)
      rw [buildMeta, List.filterMap_cons]
      cases hfa : fetchMetaEntry svc a with
      | none => exact ih hmem
      | some e =>
          simp only [Option.map]
          rw [List.lookup]
          simp only [hne]
          exact ih hmem

theorem buildMeta_lookup (svc : HttpOracle) (ids : List String) (ds : String)
    (hnd : ids.Nodup) (hmem : ds ∈ ids) :
    List.lookup ds (buildMeta svc ids) = fetchMetaEntry svc ds := by
  induction ids with
  | nil => cases hmem
  | cons a t ih =>
      rcases List.mem_cons.mp hmem with rfl | hmt
      · have hnt : ds ∉ t := (List.nodup_cons.mp hnd).1
        rw [buildMeta, List.filterMap_cons]
        cases hfa : fetchMetaEntry svc ds with
        | none => exact buildMeta_lookup_notmem svc t ds hnt
        | some e =>
            simp only [Option.map]
            rw [List.lookup]
            simp
      · have hne : (ds == a) = false :=
          beq_eq_false_iff_ne.mpr
            (fun e => (List.nodup_cons.mp hnd).1 (e ▸ hmt))
        have ih' := ih (List.nodup_cons.mp hnd).2 hmt
        rw [buildMeta, List.filterMap_cons]
        cases hfa : fetchMetaEntry svc a with
        | none => exact ih'
        | some e =>
            simp only [Option.map]
            rw [List.lookup]
            simp only [hne]
            exact ih'

/-- C2 amended: for every resolved dataset id, the response's
`dataset_metadata` holds exactly the entry of the per-dataset metadata
lookup, namely: the fallback entry with the id itself as title when the
lookup RAISED (network or parse exception); the response's title (with the
id as default) when the lookup returned 200 with a truthy success flag;
and — the amendment — NO entry at all when the lookup returned a
non-exceptional failure (a non-200 status, or a 200 response whose
success flag is falsy). -/
theorem dataset_metadata_amended (env : SearchEnv) (w : Workspace) (p : SearchParams)
    (resp : SearchResponse) (hok : search_workspace env w p = .ok resp) :
    ∀ ds ∈ resolve_workspace_datasets env.groupSvc env.tagSvc w,
      List.lookup ds resp.dataset_metadata = fetchMetaEntry env.metaSvc ds ∧
      (∀ e, env.metaSvc ds = .error e →
        fetchMetaEntry env.metaSvc ds = some ⟨.str ds, .str ""⟩) ∧
      (∀ r, env.metaSvc ds = .ok r → r.status ≠ 200 →
        fetchMetaEntry env.metaSvc ds = none) ∧
      (∀ r fields, env.metaSvc ds = .ok r → r.status = 200 →
        r.body = .ok (.obj fields) → (jGet fields "success").truthy = false →
        fetchMetaEntry env.metaSvc ds = none) ∧
      (∀ r fields rf, env.metaSvc ds = .ok r → r.status = 200 →
        r.body = .ok (.obj fields) → (jGet fields "success").truthy = true →
        jLookup fields "result" = some (.obj rf) →
        fetchMetaEntry env.metaSvc ds =
          some ⟨jGetD rf "title" (.str ds), jGetD rf "name" (.str "")⟩) := by
  have hmeta : resp.dataset_metadata =
      buildMeta env.metaSvc (resolve_workspace_datasets env.groupSvc env.tagSvc w) := by
    unfold search_workspace at hok
    cases hpre : preResults env w p with
    | error e => rw [hpre] at hok; exact absurd hok (by simp)
    | ok rs =>
        rw [hpre] at hok
        simp only [] at hok
        cases hok
        rfl
  intro ds hds
  refine ⟨?_, ?_, ?_, ?_, ?_⟩
  · rw [hmeta]
    exact buildMeta_lookup env.metaSvc _ ds (List.nodup_dedup _) hds
  · intro e he
    simp [fetchMetaEntry, he]
  · intro r hr hst
    simp [fetchMetaEntry, hr, beq_eq_false_iff_ne.mpr hst]
  · intro r fields hr hst hb hsf
    simp [fetchMetaEntry, hr, hst, hb, hsf]
  · intro r fields rf hr hst hb hsf hres
    simp [fetchMetaEntry, hr, hst, hb, hsf, hres]

/-- C2 counterexample: a dataset whose metadata lookup answers 404 without
raising gets NO `dataset_metadata` entry at all — the claim promises an
id-titled fallback entry for every resolved dataset id. -/
theorem dataset_metadata_404_ce :
    (search_workspace (envOf meta404 fetchFour) wsD1 pPlain).map
        (fun r => List.lookup "d1" r.dataset_metadata) = .ok none ∧
    "d1" ∈ resolve_workspace_datasets failAll failAll wsD1 :=
  ⟨rfl, by decide⟩

/-- C2 witness: a raising metadata lookup yields the id-titled fallback
entry. -/
theorem dataset_metadata_amended_witness :
    fetchMetaEntry metaRaise "d1" = some ⟨.str "d1", .str ""⟩ :=
  (dataset_metadata_amended (envOf metaRaise fetchFour) wsD1 pPlain _ rfl "d1"
    (by decide)).2.1 () rfl

/-! ## Claim C10 — short Point coordinate lists abort the request -/

theorem preResults_active (env : SearchEnv) (w : Workspace) (p : SearchParams)
    (la lo : ℚ) (hla : p.latP = some la) (hlo : p.lonP = some lo)
    (ha : la ≠ 0) (hb : lo ≠ 0) :
    preResults env w p =
      ((search_features (loadFeatures env.fetchF (min p.maxPerDataset 500)
          (resolve_workspace_datasets env.groupSvc env.tagSvc w)) p.query).mapM
        (annotateFeature env.dist la lo)).map sortByDistance := by
  unfold preResults searchPipeline
  rw [hla, hlo]
  simp [ha, hb]

theorem mapM_ok_forall {ε α β : Type} (f : α → Except ε β) (l : List α) (ys : List β)
    (h : l.mapM f = .ok ys) : ∀ x ∈ l, ∃ y, f x = .ok y := by
  induction l generalizing ys with
  | nil => intro x hx; cases hx
  | cons a t ih =>
      rw [List.mapM_cons] at h
      cases hfa : f a with
      | error e =>
          rw [hfa] at h
          simp [Bind.bind, Except.bind] at h
      | ok y =>
          rw [hfa] at h
          cases hft : t.mapM f with
          | error e =>
              rw [hft] at h
              simp [Bind.bind, Except.bind, Pure.pure, Except.pure] at h
          | ok ys2 =>
              intro x hx
              rcases List.mem_cons.mp hx with rfl | hx2
              · exact ⟨y, hfa⟩
              · exact ih ys2 hft x hx2

theorem annotateFeature_short (dist : ℚ → ℚ → ℚ → ℚ → ℚ) (la lo : ℚ) (f : Feature)
    (g : Geometry) (hg : f.geometry = some g) (ht : g.type = "Point")
    (hlen : g.coordinates.length < 2) :
    ∃ e, annotateFeature dist la lo f = .error e := by
  obtain ⟨gt, gc⟩ := g
  simp only at ht hlen
  subst ht
  cases gc with
  | nil => exact ⟨"IndexError", by simp [annotateFeature, hg]⟩
  | cons c cs =>
      cases cs with
      | nil =>
          by_cases hc : c > 180
          · exact ⟨"IndexError", by simp [annotateFeature, hg, hc]⟩
          · exact ⟨"ValueError", by simp [annotateFeature, hg, hc]⟩
      | cons c2 cs2 =>
          rw [List.length_cons, List.length_cons] at hlen
          exact absurd hlen (by omega)

/-- C10: with an effective reference location (both coordinates supplied and
nonzero — a zero coordinate disables the stage, see C9), the request
succeeds only if every feature surviving the query filter whose geometry
type is `Point` has a coordinate list with at least two elements; and one
surviving Point feature with fewer than two coordinates makes the entire
request fail (the HTTP 500 path) instead of being skipped. -/
theorem point_short_coords (env : SearchEnv) (w : Workspace) (p : SearchParams)
    (la lo : ℚ) (hla : p.latP = some la) (hlo : p.lonP = some lo)
    (ha : la ≠ 0) (hb : lo ≠ 0) :
    (∀ resp, search_workspace env w p = .ok resp →
      ∀ f ∈ search_features (loadFeatures env.fetchF (min p.maxPerDataset 500)
          (resolve_workspace_datasets env.groupSvc env.tagSvc w)) p.query,
        ∀ g, f.geometry = some g → g.type = "Point" → 2 ≤ g.coordinates.length) ∧
    (∀ f ∈ search_features (loadFeatures env.fetchF (min p.maxPerDataset 500)
          (resolve_workspace_datasets env.groupSvc env.tagSvc w)) p.query,
      ∀ g, f.geometry = some g → g.type = "Point" → g.coordinates.length < 2 →
        (search_workspace env w p).toOption = none) := by
  have hpre := preResults_active env w p la lo hla hlo ha hb
  constructor
  · intro resp hok f hf g hg ht
    by_contra hlt
    push_neg at hlt
    have hpok : ∃ rs, preResults env w p = .ok rs := by
      unfold search_workspace at hok
      cases hx : preResults env w p with
      | error e => rw [hx] at hok; exact absurd hok (by simp)
      | ok rs => exact ⟨rs, rfl⟩
    obtain ⟨rs, hrs⟩ := hpok
    rw [hpre] at hrs
    cases hm : (search_features (loadFeatures env.fetchF (min p.maxPerDataset 500)
        (resolve_workspace_datasets env.groupSvc env.tagSvc w)) p.query).mapM
          (annotateFeature env.dist la lo) with
    | error e => rw [hm] at hrs; simp [Except.map] at hrs
    | ok ys =>
        obtain ⟨y, hy⟩ := mapM_ok_forall _ _ _ hm f hf
        obtain ⟨e, he⟩ := annotateFeature_short env.dist la lo f g hg ht hlt
        rw [he] at hy
        exact absurd hy (by simp)
  · intro f hf g hg ht hlen
    obtain ⟨e, he⟩ := annotateFeature_short env.dist la lo f g hg ht hlen
    cases hm : (search_features (loadFeatures env.fetchF (min p.maxPerDataset 500)
        (resolve_workspace_datasets env.groupSvc env.tagSvc w)) p.query).mapM
          (annotateFeature env.dist la lo) with
    | ok ys =>
        obtain ⟨y, hy⟩ := mapM_ok_forall _ _ _ hm f hf
        rw [he] at hy
        exact absurd hy (by simp)
    | error e2 =>
        unfold search_workspace
        rw [hpre, hm]
        simp [Except.map, Except.toOption]

/-- C10 witness: one surviving Point feature whose coordinate list is
`[200]` makes the whole request (reference location (48, 11)) fail. -/
theorem point_short_coords_witness :
    (search_workspace (envOf metaRaise fetchShortPoint) wsD1 pRef).toOption = none :=
  (point_short_coords (envOf metaRaise fetchShortPoint) wsD1 pRef 48 11 rfl rfl
      (by decide) (by decide)).2
    { shortPoint with dataset_id := some "d1" }
    (List.mem_singleton.mpr rfl)
    ⟨"Point", [200]⟩ rfl rfl (by decide)

/-! ## Claim C8 — fetch degradation -/

theorem fetchCore_shape (parse : String → List CsvRow) (mg cg : HttpOracle)
    (pkg : String) :
    fetchCore parse mg cg pkg = .error () ∨
    fetchCore parse mg cg pkg = .ok emptyFC ∨
    ∃ u r, cg u = .ok r ∧
      (fetchCore parse mg cg pkg = .ok (csv_to_geojson parse r.text pkg) ∨
       (∃ j, r.body = .ok j ∧ fetchCore parse mg cg pkg = .ok j)) := by
  cases hmg : mg pkg with
  | error e => left; simp [fetchCore, hmg]
  | ok r =>
      by_cases h4 : 400 ≤ r.status
      · left; simp [fetchCore, hmg, h4]
      · cases hb : r.body with
        | error e => left; simp [fetchCore, hmg, h4, hb]
        | ok j =>
            cases j with
            | obj fields =>
                by_cases hs : (jGet fields "success").truthy
                · cases hres : jGetD fields "result" (.obj []) with
                  | obj resFields =>
                      cases hresources : jGetD resFields "resources" (.arr []) with
                      | arr resources =>
                          cases hsel : selectResource resources with
                          | error e =>
                              left; simp [fetchCore, hmg, h4, hb, hs, hres, hresources, hsel]
                          | ok osel =>
                              cases osel with
                              | none =>
                                  right; left
                                  simp [fetchCore, hmg, h4, hb, hs, hres, hresources, hsel]
                              | some pr =>
                                  obtain ⟨rj, fmt⟩ := pr
                                  cases rj with
                                  | obj rf =>
                                      by_cases hurl : (jGet rf "url").truthy
                                      · cases hu : jGet rf "url" with
                                        | str u =>
                                            rw [hu] at hurl
                                            cases hcg : cg u with
                                            | error e =>
                                                left
                                                simp [fetchCore, hmg, h4, hb, hs, hres,
                                                  hresources, hsel, hurl, hu, hurl, hcg]
                                            | ok d =>
                                                by_cases hd4 : 400 ≤ d.status
                                                · left
                                                  simp [fetchCore, hmg, h4, hb, hs, hres,
                                                    hresources, hsel, hurl, hu, hurl, hcg, hd4]
                                                · cases hfmt : fmt == "csv" with
                                                  | true =>
                                                      right; right
                                                      refine ⟨u, d, hcg, Or.inl ?_⟩
                                                      simp [fetchCore, hmg, h4, hb, hs, hres,
                                                        hresources, hsel, hurl, hu, hcg, hd4,
                                                        hfmt, hurl]
                                                  | false =>
                                                      cases hdb : d.body with
                                                      | error e =>
                                                          left
                                                          simp [fetchCore, hmg, h4, hb, hs,
                                                            hres, hresources, hsel, hurl, hu,
                                                            hcg, hd4, hfmt, hdb, hurl]
                                                      | ok dj =>
                                                          right; right
                                                          refine ⟨u, d, hcg,
                                                            Or.inr ⟨dj, hdb, ?_⟩⟩
                                                          simp [fetchCore, hmg, h4, hb, hs,
                                                            hres, hresources, hsel, hurl, hu,
                                                            hcg, hd4, hfmt, hdb, hurl]
                                        | null =>
                                            rw [hu] at hurl
                                            left
                                            simp [fetchCore, hmg, h4, hb, hs, hres,
                                              hresources, hsel, hurl, hu]
                                        | bool b =>
                                            rw [hu] at hurl
                                            left
                                            simp [fetchCore, hmg, h4, hb, hs, hres,
                                              hresources, hsel, hurl, hu]
                                        | num q =>
                                            rw [hu] at hurl
                                            left
                                            simp [fetchCore, hmg, h4, hb, hs, hres,
                                              hresources, hsel, hurl, hu]
                                        | arr xs =>
                                            rw [hu] at hurl
                                            left
                                            simp [fetchCore, hmg, h4, hb, hs, hres,
                                              hresources, hsel, hurl, hu]
                                        | obj fs2 =>
                                            rw [hu] at hurl
                                            left
                                            simp [fetchCore, hmg, h4, hb, hs, hres,
                                              hresources, hsel, hurl, hu]
                                      · right; left
                                        simp [fetchCore, hmg, h4, hb, hs, hres, hresources,
                                          hsel, hurl]
                                  | null =>
                                      left
                                      simp [fetchCore, hmg, h4, hb, hs, hres, hresources, hsel]
                                  | bool b =>
                                      left
                                      simp [fetchCore, hmg, h4, hb, hs, hres, hresources, hsel]
                                  | num q =>
                                      left
                                      simp [fetchCore, hmg, h4, hb, hs, hres, hresources, hsel]
                                  | str s2 =>
                                      left
                                      simp [fetchCore, hmg, h4, hb, hs, hres, hresources, hsel]
                                  | arr xs =>
                                      left
                                      simp [fetchCore, hmg, h4, hb, hs, hres, hresources, hsel]
                      | null => left; simp [fetchCore, hmg, h4, hb, hs, hres, hresources]
                      | bool b => left; simp [fetchCore, hmg, h4, hb, hs, hres, hresources]
                      | num q => left; simp [fetchCore, hmg, h4, hb, hs, hres, hresources]
                      | str s2 => left; simp [fetchCore, hmg, h4, hb, hs, hres, hresources]
                      | obj fs2 => left; simp [fetchCore, hmg, h4, hb, hs, hres, hresources]
                  | null => left; simp [fetchCore, hmg, h4, hb, hs, hres]
                  | bool b => left; simp [fetchCore, hmg, h4, hb, hs, hres]
                  | num q => left; simp [fetchCore, hmg, h4, hb, hs, hres]
                  | str s2 => left; simp [fetchCore, hmg, h4, hb, hs, hres]
                  | arr xs => left; simp [fetchCore, hmg, h4, hb, hs, hres]
                · right; left; simp [fetchCore, hmg, h4, hb, hs]
            | null => left; simp [fetchCore, hmg, h4, hb]
            | bool b => left; simp [fetchCore, hmg, h4, hb]
            | num q => left; simp [fetchCore, hmg, h4, hb]
            | str s2 => left; simp [fetchCore, hmg, h4, hb]
            | arr xs => left; simp [fetchCore, hmg, h4, hb]

/-- C8 amended: the memoized dataset fetch never raises to its caller
(it is total) and yields the empty FeatureCollection on every failure
path — a raised metadata request, an HTTP error status, an unparsable
metadata body, and (via the same handlers) every later failure; in
general its result is either the empty collection, or derived from a
successfully downloaded resource: the CSV normalizer's output — which is
always a FeatureCollection — or, for a GeoJSON/JSON resource, the
downloaded body exactly as parsed, WITHOUT validation that it is a
FeatureCollection. -/
theorem fetch_degrades_amended (parse : String → List CsvRow) (mg cg : HttpOracle)
    (pkg : String) :
    (∀ e, mg pkg = .error e → fetch_ckan_dataset parse mg cg pkg = emptyFC) ∧
    (∀ r, mg pkg = .ok r → 400 ≤ r.status →
      fetch_ckan_dataset parse mg cg pkg = emptyFC) ∧
    (∀ r e, mg pkg = .ok r → ¬ 400 ≤ r.status → r.body = .error e →
      fetch_ckan_dataset parse mg cg pkg = emptyFC) ∧
    (fetch_ckan_dataset parse mg cg pkg = emptyFC ∨
      ∃ u r, cg u = .ok r ∧
        (fetch_ckan_dataset parse mg cg pkg = csv_to_geojson parse r.text pkg ∨
         r.body = .ok (fetch_ckan_dataset parse mg cg pkg))) ∧
    (∀ s, (csv_to_geojson parse s pkg).isFeatureCollection = true) := by
  refine ⟨?_, ?_, ?_, ?_, ?_⟩
  · intro e h
    simp [fetch_ckan_dataset, fetchCore, h]
  · intro r h h4
    simp [fetch_ckan_dataset, fetchCore, h, h4]
  · intro r e h h4 hb
    simp [fetch_ckan_dataset, fetchCore, h, h4, hb]
  · rcases fetchCore_shape parse mg cg pkg with h | h | ⟨u, r, hcg, h | ⟨j, hb, h⟩⟩
    · left; simp [fetch_ckan_dataset, h]
    · left; simp [fetch_ckan_dataset, h]
    · right
      exact ⟨u, r, hcg, Or.inl (by simp [fetch_ckan_dataset, h])⟩
    · right
      refine ⟨u, r, hcg, Or.inr ?_⟩
      have hf : fetch_ckan_dataset parse mg cg pkg = j := by
        simp [fetch_ckan_dataset, h]
      rw [hf, hb]
  · intro s
    cases hps : parse s with
    | nil =>
        simp only [csv_to_geojson, hps]
        rfl
    | cons r0 rest =>
        cases hdet : detect_coordinate_columns (List.map (fun x => x.1) r0) with
        | mk lc oc =>
            cases lc with
            | none =>
                cases oc with
                | none => simp only [csv_to_geojson, hps, hdet]; rfl
                | some lonCol => simp only [csv_to_geojson, hps, hdet]; rfl
            | some latCol =>
                cases oc with
                | none => simp only [csv_to_geojson, hps, hdet]; rfl
                | some lonCol => simp only [csv_to_geojson, hps, hdet]; rfl

/-- C8 counterexample: a dataset whose selected JSON resource downloads and
parses to a JSON array is returned exactly as parsed — the fetch result is
not a FeatureCollection, contradicting "always returns a
FeatureCollection". -/
theorem fetch_unvalidated_json_ce :
    fetch_ckan_dataset parseNone metaJsonResource contentArr "pkg" = .arr [.num 1] ∧
    (Json.arr [.num 1]).isFeatureCollection = false :=
  ⟨rfl, rfl⟩

/-- C8 witness: a raising metadata request degrades to the empty
FeatureCollection. -/
theorem fetch_degrades_amended_witness :
    fetch_ckan_dataset parseNone metaRaise contentArr "pkg" = emptyFC :=
  (fetch_degrades_amended parseNone metaRaise contentArr "pkg").1 () rfl
